import Mathlib

/-!
# IAccessible2 live regions (`nvdaHelper/remote/ia2LiveRegions.cpp`)

A shallow embedding of the live-region event handler of NVDA's in-process helper and
proofs of its specified properties.

## Modelling conventions

* A `wstring` / `BSTR` is the list of its 16-bit code units (`List wchar_t`); a `NULL`
  `BSTR` is `none`.  A text from `IAccessibleText` is walked over its whole length and
  may hold terminators.  Names and descriptions are read by the source as terminated
  strings, so their model is the sequence of code units up to the terminator.
* The output sink is given `textBuf.c_str()`: it receives the buffer up to the first
  terminator (`c_str`).
* A `long` has 32 bits; the one sum of two `long` in the source, `startOffset+index`,
  is taken modulo `2^32` (`wrapLong`).
* `map<wstring,wstring>` is an association list; `find` is `List.lookup`.
* The accessibility tree is external to the source file.  An object is modelled by the
  answers it gives to the calls the source makes on it.  Objects form a finite tree, so
  the recursive walks of the source are total functions here.
* `iswspace` belongs to the C runtime and depends on the locale; it is a parameter of
  every definition that uses it, and every theorem holds for every choice of it.
* `wstring& textBuf` is passed in and returned; a function that fills the buffer and
  returns a flag returns the pair `(textBuf, flag)`.
-/

namespace Ia2LiveRegions

/-! ## Data model -/

/-- The `map<wstring,wstring>` filled by `IA2AttribsToMap`. -/
abbrev AttribsMap := List (String × String)

/-- The test `i!=attribsMap.end()&&i->second.compare(value)==0` after
`i=attribsMap.find(key)`. -/
def attribIs (attribsMap : AttribsMap) (key value : String) : Bool :=
  attribsMap.lookup key == some value

/-- A `wchar_t`: one 16-bit code unit of a `wstring` or `BSTR`. -/
abbrev wchar_t := Fin 65536

/-- The embedded object character `L'\xfffc'`. -/
def objectReplacementChar : wchar_t := 0xFFFC

/-- The terminator `L'\0'`. -/
def NUL : wchar_t := 0

/-- The space character `L' '`. -/
def SPACE : wchar_t := 0x20

/-- The wide string literal `L"..."` of a text within the basic multilingual plane: one
code unit for each character. -/
def wide (s : String) : List wchar_t :=
  s.toList.map (fun c => Fin.ofNat c.toNat)

/-- The string that a reader of `textBuf.c_str()` sees: the code units before the first
terminator. -/
def c_str (textBuf : List wchar_t) : List wchar_t :=
  textBuf.takeWhile (fun c => c != NUL)

/-- The value of a 32-bit `long` after an addition: the sum taken modulo `2^32` in the
range from `-2^31` to `2^31 - 1`. -/
def wrapLong (x : Int) : Int :=
  (x + 2147483648) % 4294967296 - 2147483648

/-- An `IA2TextSegment` as filled by `IAccessibleText::get_newText`. -/
structure IA2TextSegment where
  /-- The `text` member; `none` is a `NULL` `BSTR`. -/
  text : Option (List wchar_t)
  /-- The `start` member. -/
  start : Int

/-- The answers of an `IAccessibleText` interface. -/
structure IAccessibleText where
  /-- The string stored by `get_text(0,IA2_TEXT_OFFSET_LENGTH,&bstrText)`; `none` when
  `bstrText` stays `NULL`. -/
  get_text : Option (List wchar_t)
  /-- The segment stored by `get_newText(&newSeg)`; `none` when the call does not return
  `S_OK`. -/
  get_newText : Option IA2TextSegment

mutual
/-- An accessible object seen through `IAccessible2*`: the answers to the calls made by
this source file. -/
inductive IAccessible2 where
  | mk
    /- `get_attributes`, already passed through `IA2AttribsToMap` (common/ia2utils);
       `none` when the attribute `BSTR` is `NULL`. -/
    (get_attributes : Option AttribsMap)
    /- `get_accParent`; `none` when `pdispParent` stays `NULL`. -/
    (get_accParent : Option IDispatch)
    /- The `VARIANT` array filled by `AccessibleChildren` (empty when `get_accChildCount`
       fails or reports no child).  An entry is `some child` when it has `vt==VT_DISPATCH`,
       a non-null `pdispVal` and answers `QueryInterface(IID_IAccessible2)`. -/
    (accChildren : List (Option IAccessible2))
    /- `QueryInterface(IID_IAccessibleText)`. -/
    (queryText : Option IAccessibleText)
    /- `QueryInterface(IID_IAccessibleHypertext)`.  The interface is the finite map from
       a text offset to the object reached when `get_hyperlinkIndex(offset)`,
       `get_hyperlink(index)` and `QueryInterface(IID_IAccessible2)` on the hyperlink all
       succeed; an offset without entry is one where one of the three calls fails. -/
    (queryHypertext : Option (List (Int × IAccessible2)))
    /- `get_accName`; `none` when `val` stays `NULL`. -/
    (get_accName : Option (List wchar_t))
    /- `get_accDescription`; `none` when `val` stays `NULL`. -/
    (get_accDescription : Option (List wchar_t))
/-- A parent object seen through `IDispatch*`. -/
inductive IDispatch where
  | mk
    /- Whether `QueryInterface(IID_IAccessibleText)` succeeds with a non-null pointer. -/
    (queryText : Bool)
    /- `QueryInterface(IID_IAccessible2)`. -/
    (queryIA2 : Option IAccessible2)
end

namespace IAccessible2

/-- Projection: the parsed attribute string. -/
def get_attributes : IAccessible2 → Option AttribsMap
  | mk a _ _ _ _ _ _ => a

/-- Projection: the parent. -/
def get_accParent : IAccessible2 → Option IDispatch
  | mk _ p _ _ _ _ _ => p

/-- Projection: the children array. -/
def accChildren : IAccessible2 → List (Option IAccessible2)
  | mk _ _ c _ _ _ _ => c

/-- Projection: the text interface. -/
def queryText : IAccessible2 → Option IAccessibleText
  | mk _ _ _ t _ _ _ => t

/-- Projection: the hypertext interface. -/
def queryHypertext : IAccessible2 → Option (List (Int × IAccessible2))
  | mk _ _ _ _ h _ _ => h

/-- Projection: the name. -/
def get_accName : IAccessible2 → Option (List wchar_t)
  | mk _ _ _ _ _ n _ => n

/-- Projection: the description. -/
def get_accDescription : IAccessible2 → Option (List wchar_t)
  | mk _ _ _ _ _ _ d => d

end IAccessible2

namespace IDispatch

/-- Projection: whether the object has a text interface. -/
def queryText : IDispatch → Bool
  | mk t _ => t

/-- Projection: the `IAccessible2` interface. -/
def queryIA2 : IDispatch → Option IAccessible2
  | mk _ q => q

end IDispatch

/-! ## `fetchIA2Attributes` -/

/-- Source lines 26-35: `false` (here `none`) when the attribute string is `NULL`,
otherwise `true` with the parsed map. -/
def fetchIA2Attributes (pacc2 : IAccessible2) : Option AttribsMap :=
  match pacc2.get_attributes with
  | none => none
  | some attribs => some attribs

/-! ## `findAriaAtomic` -/

mutual
/-- Source lines 37-63.  The result `none` is the `NULL` return. -/
def findAriaAtomic : IAccessible2 → AttribsMap → Option IAccessible2
  | .mk a pdispParent c t h n d, attribsMap =>
    if attribIs attribsMap "atomic" "true" then
      some (.mk a pdispParent c t h n d)
    else if attribIs attribsMap "container-atomic" "true" then
      findAriaAtomic.parent pdispParent
    else none
termination_by structural x => x
/-- Source lines 47-59 of `findAriaAtomic`: the parent lookup. -/
def findAriaAtomic.parent : Option IDispatch → Option IAccessible2
  | none => none
  | some (.mk _ none) => none
  | some (.mk _ (some pacc2Parent)) =>
    (fetchIA2Attributes pacc2Parent).bind (fun parentAttribsMap =>
      findAriaAtomic pacc2Parent parentAttribsMap)
termination_by structural x => x
end

/-! ## `getTextFromIAccessible` -/

/-- Source lines 81-88 and 125-132: the test on the child's `live` attribute.  The result
of `fetchIA2Attributes` is not looked at there, so a child without attributes has the
empty map. -/
def liveOff (pacc2Child : IAccessible2) : Bool :=
  attribIs ((fetchIA2Attributes pacc2Child).getD []) "live" "off"

/-- Source lines 98-109: the text to walk and its start offset; `none` when `bstrText`
stays `NULL`. -/
def retrieveText (paccText : IAccessibleText) (useNewText : Bool) :
    Option (List wchar_t × Int) :=
  if useNewText then
    match paccText.get_newText with
    | some newSeg =>
      match newSeg.text with
      | some bstrText => some (bstrText, newSeg.start)
      | none => none
    | none => none
  else
    match paccText.get_text with
    | some bstrText => some (bstrText, 0)
    | none => none

section
variable (iswspace : wchar_t → Bool)

/-- The test of source lines 163-168 and 180-185: `valEmpty` ends `false`. -/
def hasVisibleChar (val : List wchar_t) : Bool :=
  val.any (fun c => c != objectReplacementChar && !iswspace c)

/-- Source lines 116-146: the body of the character loop, on the state
`(textBuf, gotText)`.  `expand offset state` is the embedded object branch (lines
120-138): `some` of the new state when the object at `offset` was found (`charAdded` is
set), `none` otherwise.  The offset `startOffset+index` is a sum of two `long`. -/
def textLoopBody (expand : Int → List wchar_t × Bool → Option (List wchar_t × Bool))
    (startOffset : Int) (includeTopLevelText : Bool) (index : Nat) (realChar : wchar_t)
    (st : List wchar_t × Bool) : List wchar_t × Bool :=
  match (if realChar = objectReplacementChar then
           expand (wrapLong (startOffset + index)) st
         else none) with
  | some st2 => st2
  | none =>
    if includeTopLevelText then
      (st.1 ++ [realChar], st.2 || (realChar != objectReplacementChar && !iswspace realChar))
    else st

/-- Source line 115: `for(long index=0;index<textLength;++index)`, started at `index`
on the characters not yet visited. -/
def textLoop (expand : Int → List wchar_t × Bool → Option (List wchar_t × Bool))
    (startOffset : Int) (includeTopLevelText : Bool) :
    Nat → List wchar_t → List wchar_t × Bool → List wchar_t × Bool
  | _, [], st => st
  | index, realChar :: rest, st =>
    textLoop expand startOffset includeTopLevelText (index + 1) rest
      (textLoopBody iswspace expand startOffset includeTopLevelText index realChar st)

/-- Source lines 96-153: the `IAccessibleText` branch, given the retrieved text. -/
def textBranch (expand : Int → List wchar_t × Bool → Option (List wchar_t × Bool))
    (bstr : Option (List wchar_t × Int)) (includeTopLevelText : Bool)
    (st : List wchar_t × Bool) : List wchar_t × Bool :=
  match bstr with
  | none => st
  | some (bstrText, startOffset) =>
    let st2 := textLoop iswspace expand startOffset includeTopLevelText 0 bstrText st
    (st2.1 ++ [SPACE], st2.2)

/-- Source lines 161-176: the name, appended with a space when it has a character that
is neither the embedded object character nor white space. -/
def appendName (accName : Option (List wchar_t)) (st : List wchar_t × Bool) : List wchar_t × Bool :=
  match accName with
  | some val => if hasVisibleChar iswspace val then (st.1 ++ val ++ [SPACE], true) else st
  | none => st

/-- Source lines 177-191: the description, appended under the same test. -/
def appendDescription (accDescription : Option (List wchar_t)) (st : List wchar_t × Bool) :
    List wchar_t × Bool :=
  match accDescription with
  | some val => if hasVisibleChar iswspace val then (st.1 ++ val, true) else st
  | none => st

/-- Source lines 154-193: the name and description fallback. -/
def nameAndDescription (useNewText : Bool) (accName accDescription : Option (List wchar_t))
    (st : List wchar_t × Bool) : List wchar_t × Bool :=
  if !st.2 && !useNewText then
    appendDescription iswspace accDescription (appendName iswspace accName st)
  else st

mutual
/-- Source lines 65-194.  The arguments after the object are `useNewText`, `recurse` and
`includeTopLevelText`; the C++ defaults are `false`, `true`, `true`.  The result is the
buffer and the returned `gotText`. -/
def getTextFromIAccessible (textBuf : List wchar_t) :
    IAccessible2 → Bool → Bool → Bool → List wchar_t × Bool
  | .mk _ _ varChildren paccText paccHypertext accName accDescription,
    useNewText, recurse, includeTopLevelText =>
    nameAndDescription iswspace useNewText accName accDescription
      (if paccText.isNone && recurse && !useNewText then
        getTextFromIAccessible.children varChildren (textBuf, false)
      else
        textBranch iswspace
          (fun offset st =>
            if recurse then getTextFromIAccessible.hypertext paccHypertext offset st
            else none)
          (paccText.bind (fun t => retrieveText t useNewText)) includeTopLevelText
          (textBuf, false))
termination_by structural x => x
/-- Source lines 77-93: the loop over the children array. -/
def getTextFromIAccessible.children :
    List (Option IAccessible2) → List wchar_t × Bool → List wchar_t × Bool
  | [], st => st
  | none :: rest, st => getTextFromIAccessible.children rest st
  | some pacc2Child :: rest, st =>
    getTextFromIAccessible.children rest
      (if liveOff pacc2Child then st
       else
        ((getTextFromIAccessible st.1 pacc2Child false true true).1,
          st.2 || (getTextFromIAccessible st.1 pacc2Child false true true).2))
termination_by structural x => x
/-- Source lines 114 and 120: the hypertext interface, when there is one. -/
def getTextFromIAccessible.hypertext :
    Option (List (Int × IAccessible2)) → Int → List wchar_t × Bool →
      Option (List wchar_t × Bool)
  | none, _, _ => none
  | some hyperlinks, offset, st => getTextFromIAccessible.hyperlink hyperlinks offset st
termination_by structural x => x
/-- Source lines 120-138: the object embedded at `offset`, if any, and its text. -/
def getTextFromIAccessible.hyperlink :
    List (Int × IAccessible2) → Int → List wchar_t × Bool → Option (List wchar_t × Bool)
  | [], _, _ => none
  | (linkOffset, pacc2Child) :: rest, offset, st =>
    if linkOffset = offset then
      some
        (if liveOff pacc2Child then st
         else
          ((getTextFromIAccessible st.1 pacc2Child false true true).1,
            st.2 || (getTextFromIAccessible st.1 pacc2Child false true true).2))
    else getTextFromIAccessible.hyperlink rest offset st
termination_by structural x => x
end

end

/-! ## `useIAccessibleForLiveRegionUpdate` -/

/-- The state bit `STATE_SYSTEM_INVISIBLE` of `oleacc.h`. -/
def STATE_SYSTEM_INVISIBLE : Nat := 0x8000

/-- The role `ROLE_SYSTEM_STATICTEXT` of `oleacc.h`. -/
def ROLE_SYSTEM_STATICTEXT : Nat := 0x29

/-- The answers of an `IServiceProvider`. -/
structure IServiceProvider where
  /-- The object stored by `QueryService(IID_IAccessible,IID_IAccessible2,&pacc2)`;
  `none` when `pacc2` stays `NULL`. -/
  QueryService : Option IAccessible2

/-- The object returned by `AccessibleObjectFromEvent` together with its `varChild`,
seen through `IAccessible*`. -/
structure IAccessible where
  /-- The value of `varState.lVal` after `get_accState(varChild,&varState)`, as a bit
  pattern; `none` when `varState.vt` is not `VT_I4`. -/
  get_accState : Option Nat
  /-- The value of `varRole.lVal` after `get_accRole(varChild,&varRole)`; `none` when
  `varRole.vt` is not `VT_I4`. -/
  get_accRole : Option Nat
  /-- Whether `QueryInterface(IID_IAccessibleHyperlink)` returns `S_OK`. -/
  queryHyperlink : Bool
  /-- The interface stored by `QueryInterface(IID_IServiceProvider)`; `none` when `pserv`
  stays `NULL`. -/
  queryServiceProvider : Option IServiceProvider

/-- Source lines 196-224. -/
def useIAccessibleForLiveRegionUpdate (pacc : IAccessible) : Bool :=
  if (match pacc.get_accState with
      | some lVal => lVal &&& STATE_SYSTEM_INVISIBLE != 0
      | none => false) then false
  else if pacc.get_accRole == some ROLE_SYSTEM_STATICTEXT then
    if pacc.queryHyperlink then true else false
  else true

/-! ## `winEventProcHook` -/

/-- The `eventID` of a WinEvent: the five values named in the `switch` of source lines
231-240, and every other value. -/
inductive EventID where
  | EVENT_OBJECT_NAMECHANGE
  | EVENT_OBJECT_DESCRIPTIONCHANGE
  | EVENT_OBJECT_SHOW
  | IA2_EVENT_TEXT_UPDATED
  | IA2_EVENT_TEXT_INSERTED
  /-- Any `DWORD` that is none of the five above. -/
  | other (code : Nat)
deriving DecidableEq, Repr

/-- What the window manager and the accessibility runtime answer while one event is
handled. -/
structure Desktop where
  /-- The window returned by `GetForegroundWindow()`. -/
  GetForegroundWindow : Nat
  /-- The predicate `IsWindowVisible(hwnd)`. -/
  IsWindowVisible : Nat → Bool
  /-- The predicate `IsChild(hWndParent,hWnd)`. -/
  IsChild : Nat → Nat → Bool
  /-- The object of `AccessibleObjectFromEvent(hwnd,objectID,childID,&pacc,&varChild)`;
  `none` when the call does not return `S_OK`. -/
  AccessibleObjectFromEvent : Nat → Int → Int → Option IAccessible

/-- The test of source lines 269 and 322 on a `container-live` value. -/
def isLive (attribsMap : AttribsMap) : Bool :=
  attribIs attribsMap "container-live" "polite" ||
    attribIs attribsMap "container-live" "assertive" ||
    attribIs attribsMap "container-live" "rude"

/-- The test `s.find(pattern,0)!=wstring::npos` of `std::wstring`. -/
def wstringContains (s pattern : String) : Bool :=
  s.toList.tails.any (fun t => pattern.toList.isPrefixOf t)

/-- Source lines 280-289: the pair `(allowAdditions, allowText)`. -/
def relevantSet (attribsMap : AttribsMap) : Bool × Bool :=
  match attribsMap.lookup "container-relevant" with
  | none => (true, true)
  | some relevant =>
    if relevant = "all" then (true, true)
    else (wstringContains relevant "additions", wstringContains relevant "text")

/-- Source lines 303-331: the value of `ignoreShowEvent` when the block ends. -/
def ignoreShowEvent (pacc2 : IAccessible2) : Bool :=
  match pacc2.get_accParent with
  | none => false
  | some pdispParent =>
    if pdispParent.queryText then true
    else
      match pdispParent.queryIA2 with
      | none => true
      | some pacc2Parent =>
        match fetchIA2Attributes pacc2Parent with
        | none => true
        | some parentAttribsMap => !isLive parentAttribsMap

section
variable (iswspace : wchar_t → Bool)

/-- Source lines 342-374: the pair `(textBuf, gotText)` just before the final test. -/
def collectText (eventID : EventID) (pacc2 : IAccessible2) (attribsMap : AttribsMap)
    (allowAdditions allowText : Bool) : List wchar_t × Bool :=
  match findAriaAtomic pacc2 attribsMap with
  | some pacc2Atomic => getTextFromIAccessible iswspace [] pacc2Atomic false true true
  | none =>
    match eventID with
    | .EVENT_OBJECT_NAMECHANGE =>
      match pacc2.get_accName with
      | some name => ([] ++ name, true)
      | none => ([], false)
    | .EVENT_OBJECT_DESCRIPTIONCHANGE =>
      match pacc2.get_accDescription with
      | some desc => ([] ++ desc, true)
      | none => ([], false)
    | .EVENT_OBJECT_SHOW => getTextFromIAccessible iswspace [] pacc2 false true true
    | .IA2_EVENT_TEXT_INSERTED =>
      getTextFromIAccessible iswspace [] pacc2 true allowAdditions allowText
    | .IA2_EVENT_TEXT_UPDATED =>
      getTextFromIAccessible iswspace [] pacc2 true allowAdditions allowText
    | .other _ => ([], false)

/-- Source lines 262-376: the handling of an event once the `IAccessible2` object is at
hand.  The result is the string that `nvdaController_speakText` receives through
`textBuf.c_str()`, `none` when the function returns without that call. -/
def handleObject (eventID : EventID) (pacc2 : IAccessible2) : Option (List wchar_t) :=
  match fetchIA2Attributes pacc2 with
  | none => none
  | some attribsMap =>
    if !isLive attribsMap then none
    else if attribIs attribsMap "container-busy" "true" then none
    else
      let allowAdditions := (relevantSet attribsMap).1
      let allowText := (relevantSet attribsMap).2
      if !allowAdditions && !allowText then none
      else if eventID = .EVENT_OBJECT_SHOW && !allowAdditions then none
      else if eventID = .EVENT_OBJECT_SHOW && ignoreShowEvent pacc2 then none
      else if !allowText && (eventID = .EVENT_OBJECT_NAMECHANGE ||
          eventID = .EVENT_OBJECT_DESCRIPTIONCHANGE) then none
      else
        let r := collectText iswspace eventID pacc2 attribsMap allowAdditions allowText
        if r.2 && !r.1.isEmpty then some (c_str r.1) else none

/-- Source lines 226-261: the filters on the window, the event type, the state and the
role, and the way to the `IAccessible2` object; `none` when the function returns there.
The arguments `hookID`, `threadID` and `time` are not used by the source and are left
out. -/
def eventObject (desktop : Desktop) (eventID : EventID) (hwnd : Nat)
    (objectID childID : Int) : Option IAccessible2 :=
  let fgHwnd := desktop.GetForegroundWindow
  if !desktop.IsWindowVisible hwnd || (hwnd != fgHwnd && !desktop.IsChild fgHwnd hwnd) then
    none
  else
    match eventID with
    | .other _ => none
    | _ =>
      match desktop.AccessibleObjectFromEvent hwnd objectID childID with
      | none => none
      | some pacc =>
        if !useIAccessibleForLiveRegionUpdate pacc then none
        else
          match pacc.queryServiceProvider with
          | none => none
          | some pserv => pserv.QueryService

/-- Source lines 226-377.  The result is the string given to `nvdaController_speakText`,
`none` when the function returns without that call. -/
def winEventProcHook (desktop : Desktop) (eventID : EventID) (hwnd : Nat)
    (objectID childID : Int) : Option (List wchar_t) :=
  match eventObject desktop eventID hwnd objectID childID with
  | none => none
  | some pacc2 => handleObject iswspace eventID pacc2

end

/-! ## Notions used to state the properties -/

/-- The object an event is about: the `IAccessible2` interface of the object that
`AccessibleObjectFromEvent` returns for the event, whatever the filters decide. -/
def sourceObject (desktop : Desktop) (hwnd : Nat) (objectID childID : Int) :
    Option IAccessible2 :=
  (desktop.AccessibleObjectFromEvent hwnd objectID childID).bind (fun pacc =>
    pacc.queryServiceProvider.bind (fun pserv => pserv.QueryService))

/-- The parent of an object, as an `IAccessible2` object. -/
def parentIA2 (pacc2 : IAccessible2) : Option IAccessible2 :=
  pacc2.get_accParent.bind (fun pdispParent => pdispParent.queryIA2)

/-- One step of the upward walk for the atomic scope, on objects paired with their
attributes: the current object lacks `atomic="true"`, has `container-atomic="true"`, has
a parent, and the attributes of that parent can be fetched. -/
def atomicStep (a b : IAccessible2 × AttribsMap) : Prop :=
  attribIs a.2 "atomic" "true" = false ∧ attribIs a.2 "container-atomic" "true" = true ∧
    parentIA2 a.1 = some b.1 ∧ fetchIA2Attributes b.1 = some b.2

/-- The object that the hypertext interface gives for a text offset, if any: the child
to which the embedded object character at that offset resolves. -/
def hyperlinkAt (paccHypertext : Option (List (Int × IAccessible2))) (offset : Int) :
    Option IAccessible2 :=
  paccHypertext.bind (fun hyperlinks =>
    (hyperlinks.find? (fun link => decide (link.1 = offset))).map (fun link => link.2))

/-- The five event types that the `switch` of `winEventProcHook` lets through. -/
def EventID.handled : EventID → Bool
  | .other _ => false
  | _ => true

/-- The test of source line 376 on the pair `(textBuf, gotText)`: the string given to
`nvdaController_speakText` through `textBuf.c_str()`, if the call is made. -/
def dispatchCheck (r : List wchar_t × Bool) : Option (List wchar_t) :=
  if r.2 = true ∧ r.1 ≠ [] then some (c_str r.1) else none

/-- The same object with every child that has `live="off"` taken out of the children
array. -/
def IAccessible2.withoutLiveOffChildren : IAccessible2 → IAccessible2
  | .mk a p varChildren t h n d =>
    .mk a p
      (varChildren.filter (fun child =>
        match child with
        | some pacc2Child => !liveOff pacc2Child
        | none => true))
      t h n d

section
variable (iswspace : wchar_t → Bool)

/-- Source lines 66-153 of `getTextFromIAccessible`: the pair `(textBuf, gotText)` after
the children loop or the text branch, when the test of line 154 is reached. -/
def childrenOrText (textBuf : List wchar_t) (pacc2 : IAccessible2)
    (useNewText recurse includeTopLevelText : Bool) : List wchar_t × Bool :=
  if pacc2.queryText.isNone && recurse && !useNewText then
    getTextFromIAccessible.children iswspace pacc2.accChildren (textBuf, false)
  else
    textBranch iswspace
      (fun offset st =>
        if recurse then
          getTextFromIAccessible.hypertext iswspace pacc2.queryHypertext offset st
        else none)
      (pacc2.queryText.bind (fun t => retrieveText t useNewText)) includeTopLevelText
      (textBuf, false)

end

/-! ## Notions used in the proofs about text assembly -/

section
variable (iswspace : wchar_t → Bool)

/-- A step on the state `(textBuf, gotText)` that only appends: it adds a fixed string
to the buffer and may set the flag, the flag it contributes is set only if the string
has a character that is neither the embedded object character nor white space, and,
when `iswspace` holds of the space character, it is set whenever there is one. -/
def Appends (F : List wchar_t × Bool → List wchar_t × Bool) : Prop :=
  (∀ st, F st = (st.1 ++ (F ([], false)).1, st.2 || (F ([], false)).2)) ∧
    ((F ([], false)).2 = true → hasVisibleChar iswspace (F ([], false)).1 = true) ∧
    (iswspace SPACE = true → hasVisibleChar iswspace (F ([], false)).1 = true →
      (F ([], false)).2 = true)

/-- A step that may fail: it fails on every state, or it succeeds on every state with
an appending step. -/
def AppendsOpt (E : List wchar_t × Bool → Option (List wchar_t × Bool)) : Prop :=
  (∀ st, E st = none) ∨ ∃ F, Appends iswspace F ∧ ∀ st, E st = some (F st)

/-- A function that fills a buffer and returns a flag, and only appends: the appended
string and the flag do not depend on the buffer, the flag is returned only if the string
has a character that is neither the embedded object character nor white space, and,
when `iswspace` holds of the space character, it is returned whenever there is one. -/
def AppendsText (T : List wchar_t → List wchar_t × Bool) : Prop :=
  (∀ textBuf, T textBuf = (textBuf ++ (T []).1, (T []).2)) ∧
    ((T []).2 = true → hasVisibleChar iswspace (T []).1 = true) ∧
    (iswspace SPACE = true → hasVisibleChar iswspace (T []).1 = true → (T []).2 = true)

end

/-! ## Objects and events used as concrete instances -/

namespace Example

/-- The white space of the "C" locale: the space character and the characters
`\t`, `\n`, `\v`, `\f`, `\r`. -/
def isSpace (c : wchar_t) : Bool :=
  c == SPACE || (0x09 ≤ c.val && c.val ≤ 0x0D)

/-- A desktop with the single window `1`, visible and in the foreground, where every
event is about the object `pacc2`, which is visible and has no role. -/
def desktopOf (pacc2 : IAccessible2) : Desktop where
  GetForegroundWindow := 1
  IsWindowVisible := fun hwnd => hwnd == 1
  IsChild := fun _ _ => false
  AccessibleObjectFromEvent := fun _ _ _ =>
    some { get_accState := some 0, get_accRole := none, queryHyperlink := false,
           queryServiceProvider := some { QueryService := some pacc2 } }

/-- A live region in the middle of an update. -/
def busyRegion : IAccessible2 :=
  .mk (some [("container-live", "polite"), ("container-busy", "true")]) none [] none none
    (some (wide "Cart")) none

/-- A polite live region with a name. -/
def politeRegion : IAccessible2 :=
  .mk (some [("container-live", "polite")]) none [] none none (some (wide "Cart")) none

/-- A polite live region that announces nothing: `container-relevant` names neither
additions nor text. -/
def removalsRegion : IAccessible2 :=
  .mk (some [("container-live", "polite"), ("container-relevant", "removals")]) none []
    none none (some (wide "Cart")) none

/-- A polite live region restricted to text changes. -/
def textOnlyRegion : IAccessible2 :=
  .mk (some [("container-live", "polite"), ("container-relevant", "text")]) none []
    none none (some (wide "Cart")) none

/-- A polite live region restricted to additions, which is its own atomic scope. -/
def additionsAtomicRegion : IAccessible2 :=
  .mk (some [("container-live", "polite"), ("container-relevant", "additions"),
      ("atomic", "true")]) none [] none none (some (wide "Cart")) none

/-- An object with `atomic="true"` and a name. -/
def atomicGrandparent : IAccessible2 :=
  .mk (some [("atomic", "true")]) none [] none none (some (wide "Status")) none

/-- A child of `atomicGrandparent` marked `container-atomic="true"`. -/
def middleContainer : IAccessible2 :=
  .mk (some [("container-atomic", "true")]) (some (.mk false (some atomicGrandparent))) []
    none none none none

/-- A child of `middleContainer` inside a polite live region, marked
`container-atomic="true"`. -/
def nestedItem : IAccessible2 :=
  .mk (some [("container-live", "polite"), ("container-atomic", "true")])
    (some (.mk false (some middleContainer))) [] none none (some (wide "Item")) none

/-- An embedded object with the text "here". -/
def linkChild : IAccessible2 :=
  .mk none none [] (some { get_text := some (wide "here"), get_newText := none }) none
    none none

/-- A polite live region with the text "a", embedded object, "b", whose embedded object
at offset 1 is `linkChild`, and whose inserted text is the embedded object character. -/
def linkHost : IAccessible2 :=
  .mk (some [("container-live", "polite")]) none []
    (some { get_text := some [0x61, objectReplacementChar, 0x62],
            get_newText := some { text := some [objectReplacementChar], start := 1 } })
    (some [(1, linkChild)]) none none

/-- A polite live region for additions and text in which "Sold out" was inserted. -/
def soldOutRegion : IAccessible2 :=
  .mk (some [("container-live", "polite"), ("container-relevant", "additions text")])
    none []
    (some { get_text := some (wide "Sold out"),
            get_newText := some { text := some (wide "Sold out"), start := 0 } })
    none none none

/-- A desktop where window `1` is visible and in the foreground and window `2` is not
visible; every event is about `pacc2`. -/
def hiddenWindowDesktop (pacc2 : IAccessible2) : Desktop where
  GetForegroundWindow := 1
  IsWindowVisible := fun hwnd => hwnd == 1
  IsChild := fun _ _ => false
  AccessibleObjectFromEvent := fun _ _ _ =>
    some { get_accState := some 0, get_accRole := none, queryHyperlink := false,
           queryServiceProvider := some { QueryService := some pacc2 } }

/-- A desktop like `desktopOf`, where the object of every event has the state bit
`STATE_SYSTEM_INVISIBLE`. -/
def invisibleObjectDesktop (pacc2 : IAccessible2) : Desktop where
  GetForegroundWindow := 1
  IsWindowVisible := fun hwnd => hwnd == 1
  IsChild := fun _ _ => false
  AccessibleObjectFromEvent := fun _ _ _ =>
    some { get_accState := some 0x8000, get_accRole := none, queryHyperlink := false,
           queryServiceProvider := some { QueryService := some pacc2 } }

/-- A polite live region without text interface. -/
def listRegion : IAccessible2 :=
  .mk (some [("container-live", "polite")]) none [] none none none none

/-- A new item of `listRegion`, with a name. -/
def shownItem : IAccessible2 :=
  .mk (some [("container-live", "polite")]) (some (.mk false (some listRegion))) []
    none none (some (wide "New item")) none

/-- A child with `live="off"` and the text "muted". -/
def mutedChild : IAccessible2 :=
  .mk (some [("live", "off")]) none []
    (some { get_text := some (wide "muted"), get_newText := none }) none none none

/-- A container without text interface, whose children are `linkChild`, `mutedChild` and
an entry that is no `IAccessible2` object. -/
def mixedContainer : IAccessible2 :=
  .mk (some [("container-live", "polite")]) none
    [some linkChild, some mutedChild, none] none none (some (wide "Box"))
    (some (wide "Details"))

/-- A polite live region without text interface whose name and description both have
text. -/
def labelledRegion : IAccessible2 :=
  .mk (some [("container-live", "polite")]) none [] none none (some (wide "Cart"))
    (some (wide "3 items"))

/-- A polite live region whose inserted text "a", embedded object, starts at the offset
`2147483647`, the largest `long`; the offset of the embedded object character is the
sum `2147483647+1` of two `long`, which is `-2147483648`, and the hypertext interface
gives `linkChild` there. -/
def wrappedLinkHost : IAccessible2 :=
  .mk (some [("container-live", "polite")]) none []
    (some { get_text := none,
            get_newText := some { text := some [0x61, objectReplacementChar],
                                  start := 2147483647 } })
    (some [(-2147483648, linkChild)]) none none

/-- A polite live region for additions and text in which a text with a terminator in
the middle was inserted: "a", terminator, "b". -/
def nulInsertRegion : IAccessible2 :=
  .mk (some [("container-live", "polite"), ("container-relevant", "additions text")])
    none []
    (some { get_text := some [0x61, NUL, 0x62],
            get_newText := some { text := some [0x61, NUL, 0x62], start := 0 } })
    none none none

/-- A polite live region in which a text that starts with a terminator was inserted:
terminator, "x". -/
def nulFirstInsertRegion : IAccessible2 :=
  .mk (some [("container-live", "polite")]) none []
    (some { get_text := some [NUL, 0x78],
            get_newText := some { text := some [NUL, 0x78], start := 0 } })
    none none none

/-- A new item of `listRegion` whose text has a terminator in the middle: "a",
terminator, "b". -/
def nulShownItem : IAccessible2 :=
  .mk (some [("container-live", "polite")]) (some (.mk false (some listRegion))) []
    (some { get_text := some [0x61, NUL, 0x62], get_newText := none }) none none none

end Example

/-! ## Basic facts -/

/-- The filters of `eventObject` in one formula. -/
theorem eventObject_eq (desktop : Desktop) (eventID : EventID) (hwnd : Nat)
    (objectID childID : Int) :
    eventObject desktop eventID hwnd objectID childID =
      if desktop.IsWindowVisible hwnd = true ∧
          (hwnd = desktop.GetForegroundWindow ∨
            desktop.IsChild desktop.GetForegroundWindow hwnd = true) ∧
          eventID.handled = true then
        (desktop.AccessibleObjectFromEvent hwnd objectID childID).bind (fun pacc =>
          if useIAccessibleForLiveRegionUpdate pacc = true then
            pacc.queryServiceProvider.bind (fun pserv => pserv.QueryService)
          else none)
      else none := by
  have inner : ∀ o : Option IAccessible,
      (match o with
        | none => none
        | some pacc =>
          if (!useIAccessibleForLiveRegionUpdate pacc) = true then none
          else
            match pacc.queryServiceProvider with
            | none => none
            | some pserv => pserv.QueryService) =
        o.bind (fun pacc =>
          if useIAccessibleForLiveRegionUpdate pacc = true then
            pacc.queryServiceProvider.bind (fun pserv => pserv.QueryService)
          else none) := by
    intro o
    cases o with
    | none => rfl
    | some pacc =>
      cases hu : useIAccessibleForLiveRegionUpdate pacc <;>
        cases hq : pacc.queryServiceProvider <;> simp [hu, hq]
  unfold eventObject
  cases eventID <;> simp only [inner, EventID.handled] <;>
    cases hv : desktop.IsWindowVisible hwnd <;>
    cases hc : desktop.IsChild desktop.GetForegroundWindow hwnd <;>
    by_cases hf : hwnd = desktop.GetForegroundWindow <;>
    simp [hf]

theorem eventObject_sourceObject {desktop : Desktop} {eventID : EventID} {hwnd : Nat}
    {objectID childID : Int} {pacc2 : IAccessible2}
    (h : eventObject desktop eventID hwnd objectID childID = some pacc2) :
    sourceObject desktop hwnd objectID childID = some pacc2 := by
  rw [eventObject_eq] at h
  unfold sourceObject
  split at h
  · cases hacc : desktop.AccessibleObjectFromEvent hwnd objectID childID with
    | none => simp [hacc] at h
    | some pacc =>
      simp only [hacc, Option.some_bind] at h ⊢
      split at h
      · exact h
      · simp at h
  · simp at h

theorem winEventProcHook_eq_some {iswspace : wchar_t → Bool} {desktop : Desktop}
    {eventID : EventID} {hwnd : Nat} {objectID childID : Int} {text : List wchar_t}
    (h : winEventProcHook iswspace desktop eventID hwnd objectID childID = some text) :
    ∃ pacc2, eventObject desktop eventID hwnd objectID childID = some pacc2 ∧
      handleObject iswspace eventID pacc2 = some text := by
  unfold winEventProcHook at h
  cases hobj : eventObject desktop eventID hwnd objectID childID with
  | none => rw [hobj] at h; exact absurd h (by simp)
  | some pacc2 => rw [hobj] at h; exact ⟨pacc2, rfl, h⟩

theorem winEventProcHook_of_sourceObject (iswspace : wchar_t → Bool) (desktop : Desktop)
    (eventID : EventID) (hwnd : Nat) (objectID childID : Int) (pacc2 : IAccessible2)
    (hsrc : sourceObject desktop hwnd objectID childID = some pacc2) :
    winEventProcHook iswspace desktop eventID hwnd objectID childID = none ∨
      winEventProcHook iswspace desktop eventID hwnd objectID childID =
        handleObject iswspace eventID pacc2 := by
  unfold winEventProcHook
  cases hobj : eventObject desktop eventID hwnd objectID childID with
  | none => exact Or.inl rfl
  | some p =>
    have := eventObject_sourceObject hobj
    rw [hsrc] at this
    cases this
    exact Or.inr rfl

/-- What `handleObject` returns, when it returns a string: the attributes were fetched,
the region is live and not busy, no relevance filter applies, and the string is what
`c_str()` shows of the non-empty buffer of `collectText`, whose flag is set. -/
theorem handleObject_eq_some {iswspace : wchar_t → Bool} {eventID : EventID}
    {pacc2 : IAccessible2} {text : List wchar_t}
    (h : handleObject iswspace eventID pacc2 = some text) :
    ∃ attribsMap, fetchIA2Attributes pacc2 = some attribsMap ∧ isLive attribsMap = true ∧
      attribIs attribsMap "container-busy" "true" = false ∧
      ((relevantSet attribsMap).1 = true ∨ (relevantSet attribsMap).2 = true) ∧
      (eventID = .EVENT_OBJECT_SHOW →
        (relevantSet attribsMap).1 = true ∧ ignoreShowEvent pacc2 = false) ∧
      (eventID = .EVENT_OBJECT_NAMECHANGE ∨ eventID = .EVENT_OBJECT_DESCRIPTIONCHANGE →
        (relevantSet attribsMap).2 = true) ∧
      ∃ textBuf, collectText iswspace eventID pacc2 attribsMap (relevantSet attribsMap).1
        (relevantSet attribsMap).2 = (textBuf, true) ∧ textBuf ≠ [] ∧
        text = c_str textBuf := by
  unfold handleObject at h
  cases hattr : fetchIA2Attributes pacc2 with
  | none => rw [hattr] at h; exact absurd h (by simp)
  | some attribsMap =>
    rw [hattr] at h
    simp only at h
    refine ⟨attribsMap, rfl, ?_⟩
    split at h
    · exact absurd h (by simp)
    split at h
    · exact absurd h (by simp)
    split at h
    · exact absurd h (by simp)
    split at h
    · exact absurd h (by simp)
    split at h
    · exact absurd h (by simp)
    split at h
    · exact absurd h (by simp)
    split at h
    · rename_i h1 h2 h3 h4 h5 h6 h7
      simp only [Option.some.injEq] at h
      simp only [Bool.and_eq_true, Bool.not_eq_true', List.isEmpty_eq_true] at h7
      refine ⟨by simpa using h1, by simpa using h2, ?_, ?_, ?_,
        ⟨(collectText iswspace eventID pacc2 attribsMap (relevantSet attribsMap).1
          (relevantSet attribsMap).2).1, ?_, ?_, h.symm⟩⟩
      · by_contra hc
        simp only [not_or, Bool.not_eq_true] at hc
        exact h3 (by simp [hc.1, hc.2])
      · intro he
        subst he
        constructor
        · by_contra hc
          exact h4 (by simpa using hc)
        · by_contra hc
          exact h5 (by simpa using hc)
      · intro he
        by_contra hc
        exact h6 (by rcases he with he | he <;> subst he <;> simpa using hc)
      · exact Prod.ext rfl h7.1
      · intro hnil
        simp [hnil] at h7
    · exact absurd h (by simp)

theorem isLive_iff (attribsMap : AttribsMap) :
    isLive attribsMap = true ↔
      attribsMap.lookup "container-live" = some "polite" ∨
      attribsMap.lookup "container-live" = some "assertive" ∨
      attribsMap.lookup "container-live" = some "rude" := by
  simp [isLive, attribIs, or_assoc]

/-! ## The filters on the attributes of the source object -/

/-- C1: for every event, whatever its type, its window and the other attributes, when
the attributes of the source object have `container-busy` equal to `"true"`,
`winEventProcHook` gives no text to the output sink. -/
theorem busy_region_dispatches_nothing (iswspace : wchar_t → Bool) (desktop : Desktop)
    (eventID : EventID) (hwnd : Nat) (objectID childID : Int) (pacc2 : IAccessible2)
    (attribsMap : AttribsMap)
    (hsrc : sourceObject desktop hwnd objectID childID = some pacc2)
    (hattr : fetchIA2Attributes pacc2 = some attribsMap)
    (hbusy : attribsMap.lookup "container-busy" = some "true") :
    winEventProcHook iswspace desktop eventID hwnd objectID childID = none := by
  rcases winEventProcHook_of_sourceObject iswspace desktop eventID hwnd objectID childID
    pacc2 hsrc with h | h
  · exact h
  · rw [h]
    unfold handleObject
    rw [hattr]
    simp [attribIs, hbusy]

/-- Instance of C1: a name change on a polite region that is busy. -/
theorem busy_region_dispatches_nothing_witness :
    sourceObject (Example.desktopOf Example.busyRegion) 1 0 0 = some Example.busyRegion ∧
      winEventProcHook Example.isSpace (Example.desktopOf Example.busyRegion)
        .EVENT_OBJECT_NAMECHANGE 1 0 0 = none :=
  ⟨rfl, busy_region_dispatches_nothing Example.isSpace
    (Example.desktopOf Example.busyRegion) .EVENT_OBJECT_NAMECHANGE 1 0 0
    Example.busyRegion [("container-live", "polite"), ("container-busy", "true")]
    rfl rfl (by decide)⟩

/-- C2: `winEventProcHook` gives a text to the output sink only if the attributes of the
source object could be fetched and their `container-live` is exactly `"polite"`,
`"assertive"` or `"rude"`.  Hence no attribute string, no `container-live`, or another
value such as `"off"`, give no dispatch. -/
theorem dispatch_needs_container_live (iswspace : wchar_t → Bool) (desktop : Desktop)
    (eventID : EventID) (hwnd : Nat) (objectID childID : Int) (text : List wchar_t)
    (h : winEventProcHook iswspace desktop eventID hwnd objectID childID = some text) :
    ∃ pacc2 attribsMap, sourceObject desktop hwnd objectID childID = some pacc2 ∧
      fetchIA2Attributes pacc2 = some attribsMap ∧
      (attribsMap.lookup "container-live" = some "polite" ∨
        attribsMap.lookup "container-live" = some "assertive" ∨
        attribsMap.lookup "container-live" = some "rude") := by
  obtain ⟨pacc2, hobj, hh⟩ := winEventProcHook_eq_some h
  obtain ⟨attribsMap, hattr, hlive, -⟩ := handleObject_eq_some hh
  exact ⟨pacc2, attribsMap, eventObject_sourceObject hobj, hattr,
    (isLive_iff attribsMap).1 hlive⟩

/-- Instance of C2: a name change on a polite region dispatches the name. -/
theorem dispatch_needs_container_live_witness :
    winEventProcHook Example.isSpace (Example.desktopOf Example.politeRegion)
        .EVENT_OBJECT_NAMECHANGE 1 0 0 = some (wide "Cart") ∧
      ∃ pacc2 attribsMap,
        sourceObject (Example.desktopOf Example.politeRegion) 1 0 0 = some pacc2 ∧
        fetchIA2Attributes pacc2 = some attribsMap ∧
        (attribsMap.lookup "container-live" = some "polite" ∨
          attribsMap.lookup "container-live" = some "assertive" ∨
          attribsMap.lookup "container-live" = some "rude") :=
  ⟨by decide, dispatch_needs_container_live Example.isSpace
    (Example.desktopOf Example.politeRegion) .EVENT_OBJECT_NAMECHANGE 1 0 0 (wide "Cart")
    (by decide)⟩

theorem wstringContains_iff (s pattern : String) :
    wstringContains s pattern = true ↔ pattern.toList <:+: s.toList := by
  unfold wstringContains
  rw [List.any_eq_true, List.infix_iff_prefix_suffix]
  constructor
  · rintro ⟨t, ht, hp⟩
    exact ⟨t, List.isPrefixOf_iff_prefix.1 hp, (List.mem_tails _ _).1 ht⟩
  · rintro ⟨t, hp, ht⟩
    exact ⟨t, (List.mem_tails _ _).2 ht, List.isPrefixOf_iff_prefix.2 hp⟩

/-- The three relevance tests of `handleObject` (source lines 291, 296 and 338) in
isolation: when the region is live and not busy, the result is fixed by the relevant
set, the show-event rule and the collected text. -/
theorem handleObject_of_live (iswspace : wchar_t → Bool) (eventID : EventID)
    (pacc2 : IAccessible2) (attribsMap : AttribsMap)
    (hattr : fetchIA2Attributes pacc2 = some attribsMap)
    (hlive : isLive attribsMap = true)
    (hbusy : attribIs attribsMap "container-busy" "true" = false) :
    handleObject iswspace eventID pacc2 =
      if (relevantSet attribsMap).1 = false ∧ (relevantSet attribsMap).2 = false then none
      else if eventID = .EVENT_OBJECT_SHOW ∧ (relevantSet attribsMap).1 = false then none
      else if eventID = .EVENT_OBJECT_SHOW ∧ ignoreShowEvent pacc2 = true then none
      else if (relevantSet attribsMap).2 = false ∧
          (eventID = .EVENT_OBJECT_NAMECHANGE ∨ eventID = .EVENT_OBJECT_DESCRIPTIONCHANGE)
        then none
      else if (collectText iswspace eventID pacc2 attribsMap (relevantSet attribsMap).1
            (relevantSet attribsMap).2).2 = true ∧
          (collectText iswspace eventID pacc2 attribsMap (relevantSet attribsMap).1
            (relevantSet attribsMap).2).1 ≠ [] then
        some (c_str (collectText iswspace eventID pacc2 attribsMap
          (relevantSet attribsMap).1 (relevantSet attribsMap).2).1)
      else none := by
  unfold handleObject
  rw [hattr]
  simp only [hlive, hbusy, Bool.not_true, Bool.false_eq_true, if_false]
  simp only [Bool.and_eq_true, Bool.not_eq_true', decide_eq_true_eq, Bool.or_eq_true,
    List.isEmpty_eq_true, ne_eq]
  have hne : ∀ l : List wchar_t, (l.isEmpty = false) = (¬ l = []) := by
    intro l
    cases l <;> simp
  simp only [hne]

/-- C8: the pair `(allowAdditions, allowText)` that `winEventProcHook` computes from an
attribute map is `(true, true)` when `container-relevant` is absent or equal to `"all"`;
otherwise `allowAdditions` holds iff the value contains `"additions"` and `allowText`
holds iff the value contains `"text"`, so that `"all text"` gives `(false, true)`; and
when both are false no text is dispatched. -/
theorem relevantSet_spec (attribsMap : AttribsMap) :
    ((attribsMap.lookup "container-relevant" = none ∨
        attribsMap.lookup "container-relevant" = some "all") →
      relevantSet attribsMap = (true, true)) ∧
    (∀ relevant : String, attribsMap.lookup "container-relevant" = some relevant →
      relevant ≠ "all" →
      ((relevantSet attribsMap).1 = true ↔ "additions".toList <:+: relevant.toList) ∧
      ((relevantSet attribsMap).2 = true ↔ "text".toList <:+: relevant.toList)) ∧
    relevantSet [("container-relevant", "all text")] = (false, true) ∧
    (relevantSet attribsMap = (false, false) →
      ∀ (iswspace : wchar_t → Bool) (desktop : Desktop) (eventID : EventID) (hwnd : Nat)
        (objectID childID : Int) (pacc2 : IAccessible2),
        sourceObject desktop hwnd objectID childID = some pacc2 →
        fetchIA2Attributes pacc2 = some attribsMap →
        winEventProcHook iswspace desktop eventID hwnd objectID childID = none) := by
  refine ⟨?_, ?_, by decide, ?_⟩
  · rintro (h | h) <;> simp [relevantSet, h]
  · intro relevant h hne
    simp only [relevantSet, h, hne, if_false]
    exact ⟨wstringContains_iff _ _, wstringContains_iff _ _⟩
  · intro hrel iswspace desktop eventID hwnd objectID childID pacc2 hsrc hattr
    rcases winEventProcHook_of_sourceObject iswspace desktop eventID hwnd objectID childID
      pacc2 hsrc with h | h
    · exact h
    · rw [h]
      unfold handleObject
      rw [hattr]
      simp only [hrel]
      split
      · rfl
      split
      · rfl
      simp

/-- Instance of C8: `container-relevant="removals"` gives `(false, false)` and a name
change dispatches nothing. -/
theorem relevantSet_spec_witness :
    relevantSet [("container-live", "polite"), ("container-relevant", "removals")] =
        (false, false) ∧
      winEventProcHook Example.isSpace (Example.desktopOf Example.removalsRegion)
        .EVENT_OBJECT_NAMECHANGE 1 0 0 = none :=
  ⟨by decide,
    (relevantSet_spec
      [("container-live", "polite"), ("container-relevant", "removals")]).2.2.2
      (by decide) Example.isSpace (Example.desktopOf Example.removalsRegion)
      .EVENT_OBJECT_NAMECHANGE 1 0 0 Example.removalsRegion rfl rfl⟩

/-- C9: a "shown" event on an object whose `container-relevant` gives
`allowAdditions = false`, as `container-relevant="text"` does, dispatches nothing; and
with `container-relevant` absent or `"all"` the relevance tests discard no event that
reached them, of any type: the outcome is then fixed by the show-event rule and by the
collected text alone. -/
theorem shown_event_relevance (iswspace : wchar_t → Bool) (desktop : Desktop)
    (eventID : EventID) (hwnd : Nat) (objectID childID : Int) (pacc2 : IAccessible2)
    (attribsMap : AttribsMap)
    (hattr : fetchIA2Attributes pacc2 = some attribsMap) :
    (sourceObject desktop hwnd objectID childID = some pacc2 →
      (relevantSet attribsMap).1 = false →
      winEventProcHook iswspace desktop .EVENT_OBJECT_SHOW hwnd objectID childID = none) ∧
    (attribsMap.lookup "container-relevant" = some "text" →
      (relevantSet attribsMap).1 = false) ∧
    (eventObject desktop eventID hwnd objectID childID = some pacc2 →
      isLive attribsMap = true →
      attribIs attribsMap "container-busy" "true" = false →
      (attribsMap.lookup "container-relevant" = none ∨
        attribsMap.lookup "container-relevant" = some "all") →
      relevantSet attribsMap = (true, true) ∧
      winEventProcHook iswspace desktop eventID hwnd objectID childID =
        if eventID = .EVENT_OBJECT_SHOW ∧ ignoreShowEvent pacc2 = true then none
        else if (collectText iswspace eventID pacc2 attribsMap true true).2 = true ∧
            (collectText iswspace eventID pacc2 attribsMap true true).1 ≠ [] then
          some (c_str (collectText iswspace eventID pacc2 attribsMap true true).1)
        else none) := by
  refine ⟨?_, ?_, ?_⟩
  · intro hsrc hrel
    rcases winEventProcHook_of_sourceObject iswspace desktop .EVENT_OBJECT_SHOW hwnd
      objectID childID pacc2 hsrc with h | h
    · exact h
    · rw [h]
      unfold handleObject
      rw [hattr]
      simp only [hrel]
      split
      · rfl
      split
      · rfl
      simp
  · intro h
    simp only [relevantSet, h]
    decide
  · intro hobj hlive hbusy hrel
    have hset : relevantSet attribsMap = (true, true) := by
      rcases hrel with h | h <;> simp [relevantSet, h]
    refine ⟨hset, ?_⟩
    unfold winEventProcHook
    rw [hobj]
    simp only []
    rw [handleObject_of_live iswspace eventID pacc2 attribsMap hattr hlive hbusy, hset]
    simp

/-- Instance of C9: a "shown" event on a region with `container-relevant="text"`. -/
theorem shown_event_relevance_witness :
    (relevantSet [("container-live", "polite"), ("container-relevant", "text")]).1 = false ∧
      winEventProcHook Example.isSpace (Example.desktopOf Example.textOnlyRegion)
        .EVENT_OBJECT_SHOW 1 0 0 = none :=
  ⟨by decide,
    (shown_event_relevance Example.isSpace (Example.desktopOf Example.textOnlyRegion)
      .EVENT_OBJECT_SHOW 1 0 0 Example.textOnlyRegion
      [("container-live", "polite"), ("container-relevant", "text")] rfl).1 rfl
      (by decide)⟩

/-- C10: a name-changed or description-changed event on an object whose relevant set
has `allowText = false`, as `container-relevant="additions"` gives, dispatches nothing,
whatever `findAriaAtomic` would return for the object. -/
theorem name_change_needs_text (iswspace : wchar_t → Bool) (desktop : Desktop)
    (eventID : EventID) (hwnd : Nat) (objectID childID : Int) (pacc2 : IAccessible2)
    (attribsMap : AttribsMap)
    (hsrc : sourceObject desktop hwnd objectID childID = some pacc2)
    (hattr : fetchIA2Attributes pacc2 = some attribsMap)
    (hevent : eventID = .EVENT_OBJECT_NAMECHANGE ∨ eventID = .EVENT_OBJECT_DESCRIPTIONCHANGE)
    (hrel : (relevantSet attribsMap).2 = false) :
    winEventProcHook iswspace desktop eventID hwnd objectID childID = none := by
  rcases winEventProcHook_of_sourceObject iswspace desktop eventID hwnd objectID childID
    pacc2 hsrc with h | h
  · exact h
  · rw [h]
    unfold handleObject
    rw [hattr]
    simp only [hrel]
    split
    · rfl
    split
    · rfl
    split
    · rfl
    split
    · rfl
    split
    · rfl
    rcases hevent with he | he <;> subst he <;> simp

/-- Instance of C10: a name change on a region with `container-relevant="additions"`
that is its own atomic scope. -/
theorem name_change_needs_text_witness :
    findAriaAtomic Example.additionsAtomicRegion
        [("container-live", "polite"), ("container-relevant", "additions"),
          ("atomic", "true")] = some Example.additionsAtomicRegion ∧
      winEventProcHook Example.isSpace (Example.desktopOf Example.additionsAtomicRegion)
        .EVENT_OBJECT_NAMECHANGE 1 0 0 = none :=
  ⟨rfl,
    name_change_needs_text Example.isSpace
      (Example.desktopOf Example.additionsAtomicRegion) .EVENT_OBJECT_NAMECHANGE 1 0 0
      Example.additionsAtomicRegion
      [("container-live", "polite"), ("container-relevant", "additions"),
        ("atomic", "true")] rfl rfl (Or.inl rfl) (by decide)⟩

/-! ## The atomic scope -/

theorem findAriaAtomic_eq (pacc2 : IAccessible2) (attribsMap : AttribsMap) :
    findAriaAtomic pacc2 attribsMap =
      if attribIs attribsMap "atomic" "true" = true then some pacc2
      else if attribIs attribsMap "container-atomic" "true" = true then
        (parentIA2 pacc2).bind (fun pacc2Parent =>
          (fetchIA2Attributes pacc2Parent).bind (fun parentAttribsMap =>
            findAriaAtomic pacc2Parent parentAttribsMap))
      else none := by
  cases pacc2 with
  | mk a pdispParent c t h n d =>
    rw [findAriaAtomic]
    split
    · rfl
    split
    · cases pdispParent with
      | none => rfl
      | some disp =>
        cases disp with
        | mk qt q =>
          cases q with
          | none => rfl
          | some p => rfl
    · rfl

theorem sizeOf_parentIA2 {pacc2 pacc2Parent : IAccessible2}
    (h : parentIA2 pacc2 = some pacc2Parent) : sizeOf pacc2Parent < sizeOf pacc2 := by
  cases pacc2 with
  | mk a pdispParent c t hy n d =>
    cases pdispParent with
    | none => simp [parentIA2, IAccessible2.get_accParent] at h
    | some disp =>
      cases disp with
      | mk qt q =>
        simp only [parentIA2, IAccessible2.get_accParent, Option.some_bind,
          IDispatch.queryIA2] at h
        subst h
        simp only [IAccessible2.mk.sizeOf_spec, Option.some.sizeOf_spec,
          IDispatch.mk.sizeOf_spec]
        omega

theorem findAriaAtomic_step {a b : IAccessible2 × AttribsMap} (h : atomicStep a b) :
    findAriaAtomic a.1 a.2 = findAriaAtomic b.1 b.2 := by
  obtain ⟨h1, h2, h3, h4⟩ := h
  rw [findAriaAtomic_eq a.1 a.2]
  simp [h1, h2, h3, h4]

theorem atomicStep_deterministic {a b c : IAccessible2 × AttribsMap}
    (hb : atomicStep a b) (hc : atomicStep a c) : b = c := by
  obtain ⟨-, -, hb3, hb4⟩ := hb
  obtain ⟨-, -, hc3, hc4⟩ := hc
  rw [hb3] at hc3
  have h1 : b.1 = c.1 := Option.some.inj hc3
  rw [h1, hc4] at hb4
  exact Prod.ext h1 (Option.some.inj hb4).symm

/-- Along a walk that ends on an object with `atomic="true"`, `findAriaAtomic` returns
that object. -/
theorem findAriaAtomic_of_chain (start : IAccessible2 × AttribsMap)
    (rest : List (IAccessible2 × AttribsMap)) (hchain : List.Chain atomicStep start rest)
    (hlast : attribIs ((start :: rest).getLast (List.cons_ne_nil _ _)).2 "atomic" "true"
      = true) :
    findAriaAtomic start.1 start.2 =
      some ((start :: rest).getLast (List.cons_ne_nil _ _)).1 := by
  induction rest generalizing start with
  | nil =>
    simp only [List.getLast_singleton] at hlast ⊢
    rw [findAriaAtomic_eq]
    simp [hlast]
  | cons b rest ih =>
    rw [List.chain_cons] at hchain
    rw [findAriaAtomic_step hchain.1]
    simp only [List.getLast_cons_cons] at hlast ⊢
    exact ih b hchain.2 hlast

/-- Along a walk that stops on an object without `atomic="true"`, `findAriaAtomic`
returns nothing. -/
theorem findAriaAtomic_of_stuck (start : IAccessible2 × AttribsMap)
    (rest : List (IAccessible2 × AttribsMap)) (hchain : List.Chain atomicStep start rest)
    (hlast : attribIs ((start :: rest).getLast (List.cons_ne_nil _ _)).2 "atomic" "true"
      = false)
    (hstuck : ∀ next, ¬ atomicStep ((start :: rest).getLast (List.cons_ne_nil _ _)) next) :
    findAriaAtomic start.1 start.2 = none := by
  induction rest generalizing start with
  | nil =>
    simp only [List.getLast_singleton] at hlast hstuck
    rw [findAriaAtomic_eq]
    simp only [hlast, Bool.false_eq_true, if_false]
    split
    · rename_i hc
      cases hp : parentIA2 start.1 with
      | none => rfl
      | some p =>
        cases hf : fetchIA2Attributes p with
        | none => simp [hf]
        | some m => exact absurd ⟨hlast, hc, hp, hf⟩ (hstuck (p, m))
    · rfl
  | cons b rest ih =>
    rw [List.chain_cons] at hchain
    rw [findAriaAtomic_step hchain.1]
    simp only [List.getLast_cons_cons] at hlast hstuck
    exact ih b hchain.2 hlast hstuck

/-- The upward walk from any object is finite: it reaches an object with
`atomic="true"` or an object from which no step is possible. -/
theorem atomic_walk_exists (pacc2 : IAccessible2) (attribsMap : AttribsMap) :
    ∃ rest, List.Chain atomicStep (pacc2, attribsMap) rest ∧
      (attribIs (((pacc2, attribsMap) :: rest).getLast (List.cons_ne_nil _ _)).2
          "atomic" "true" = true ∨
        (attribIs (((pacc2, attribsMap) :: rest).getLast (List.cons_ne_nil _ _)).2
            "atomic" "true" = false ∧
          ∀ next, ¬ atomicStep
            (((pacc2, attribsMap) :: rest).getLast (List.cons_ne_nil _ _)) next)) := by
  generalize hsize : sizeOf pacc2 = k
  induction k using Nat.strong_induction_on generalizing pacc2 attribsMap with
  | _ k ih =>
    by_cases ha : attribIs attribsMap "atomic" "true" = true
    · exact ⟨[], List.Chain.nil, Or.inl (by simpa using ha)⟩
    · have ha2 : attribIs attribsMap "atomic" "true" = false := by simpa using ha
      by_cases hc : attribIs attribsMap "container-atomic" "true" = true
      · cases hp : parentIA2 pacc2 with
        | none =>
          refine ⟨[], List.Chain.nil, Or.inr ⟨by simpa using ha2, ?_⟩⟩
          rintro next ⟨-, -, h3, -⟩
          simp [hp] at h3
        | some p =>
          cases hf : fetchIA2Attributes p with
          | none =>
            refine ⟨[], List.Chain.nil, Or.inr ⟨by simpa using ha2, ?_⟩⟩
            rintro next ⟨-, -, h3, h4⟩
            simp only [List.getLast_singleton] at h3 h4
            rw [hp] at h3
            rw [← Option.some.inj h3, hf] at h4
            exact absurd h4 (by simp)
          | some m =>
            obtain ⟨rest, hchain, hend⟩ :=
              ih (sizeOf p) (hsize ▸ sizeOf_parentIA2 hp) p m rfl
            refine ⟨(p, m) :: rest, List.Chain.cons ⟨ha2, hc, hp, hf⟩ hchain, ?_⟩
            simpa only [List.getLast_cons_cons] using hend
      · refine ⟨[], List.Chain.nil, Or.inr ⟨by simpa using ha2, ?_⟩⟩
        rintro next ⟨-, h2, -, -⟩
        exact hc (by simpa using h2)

theorem chain_dropLast_step {α : Type} {R : α → α → Prop} (a : α) (rest : List α)
    (h : List.Chain R a rest) : ∀ e ∈ (a :: rest).dropLast, ∃ b, R e b := by
  induction rest generalizing a with
  | nil => simp
  | cons b rest ih =>
    rw [List.chain_cons] at h
    intro e he
    rw [List.dropLast_cons₂, List.mem_cons] at he
    rcases he with he | he
    · exact ⟨b, he ▸ h.1⟩
    · exact ih b h.2 e he

theorem chain_parent {start : IAccessible2 × AttribsMap}
    {rest : List (IAccessible2 × AttribsMap)} (h : List.Chain atomicStep start rest) :
    Relation.ReflTransGen (fun child parent => parentIA2 child = some parent) start.1
      ((start :: rest).getLast (List.cons_ne_nil _ _)).1 := by
  induction rest generalizing start with
  | nil => exact Relation.ReflTransGen.refl
  | cons b rest ih =>
    rw [List.chain_cons] at h
    simp only [List.getLast_cons_cons]
    exact Relation.ReflTransGen.head h.1.2.2.1 (ih h.2)

/-- C5: along a chain `n0, n1, ..., nk` (`k >= 0`) in which every object before the last
has `container-atomic="true"` and lacks `atomic="true"`, every parent lookup and
attribute fetch succeeds, and the last object has `atomic="true"`, `findAriaAtomic`
started on `n0` returns the last object `nk`, not an object in between; with `k = 0`
it returns the start object, whatever its `container-atomic` is. -/
theorem findAriaAtomic_returns_chain_end (pacc2 : IAccessible2) (attribsMap : AttribsMap)
    (rest : List (IAccessible2 × AttribsMap))
    (hchain : List.Chain atomicStep (pacc2, attribsMap) rest)
    (hlast : attribIs (((pacc2, attribsMap) :: rest).getLast (List.cons_ne_nil _ _)).2
      "atomic" "true" = true) :
    findAriaAtomic pacc2 attribsMap =
        some (((pacc2, attribsMap) :: rest).getLast (List.cons_ne_nil _ _)).1 ∧
      (rest = [] → findAriaAtomic pacc2 attribsMap = some pacc2) := by
  have h := findAriaAtomic_of_chain (pacc2, attribsMap) rest hchain hlast
  refine ⟨h, ?_⟩
  intro hnil
  subst hnil
  simpa using h

/-- Instance of C5: from an object two levels below the object with `atomic="true"`,
both objects in between being marked `container-atomic="true"`. -/
theorem findAriaAtomic_returns_chain_end_witness :
    findAriaAtomic Example.nestedItem [("container-live", "polite"),
        ("container-atomic", "true")] = some Example.atomicGrandparent ∧
      findAriaAtomic Example.atomicGrandparent [("atomic", "true")] =
        some Example.atomicGrandparent :=
  ⟨(findAriaAtomic_returns_chain_end Example.nestedItem
      [("container-live", "polite"), ("container-atomic", "true")]
      [(Example.middleContainer, [("container-atomic", "true")]),
        (Example.atomicGrandparent, [("atomic", "true")])]
      (List.Chain.cons ⟨rfl, rfl, rfl, rfl⟩
        (List.Chain.cons ⟨rfl, rfl, rfl, rfl⟩ List.Chain.nil))
      rfl).1,
   (findAriaAtomic_returns_chain_end Example.atomicGrandparent [("atomic", "true")] []
      List.Chain.nil rfl).2 rfl⟩

/-- C6: when `findAriaAtomic` returns an object, that object is the start object or one
of its ancestors, its attributes have `atomic="true"`, and no object strictly below it
on the path from the start object has `atomic="true"`; and `findAriaAtomic` returns
nothing exactly when the upward walk, which goes on only while the current object lacks
`atomic="true"`, has `container-atomic="true"`, has a parent, and the attributes of that
parent can be fetched, stops on an object without `atomic="true"`. -/
theorem findAriaAtomic_spec (pacc2 : IAccessible2) (attribsMap : AttribsMap) :
    (∀ result, findAriaAtomic pacc2 attribsMap = some result →
      ∃ rest, List.Chain atomicStep (pacc2, attribsMap) rest ∧
        (((pacc2, attribsMap) :: rest).getLast (List.cons_ne_nil _ _)).1 = result ∧
        attribIs (((pacc2, attribsMap) :: rest).getLast (List.cons_ne_nil _ _)).2
          "atomic" "true" = true ∧
        Relation.ReflTransGen (fun child parent => parentIA2 child = some parent)
          pacc2 result ∧
        ∀ e ∈ ((pacc2, attribsMap) :: rest).dropLast,
          attribIs e.2 "atomic" "true" = false) ∧
    (findAriaAtomic pacc2 attribsMap = none ↔
      ∃ rest, List.Chain atomicStep (pacc2, attribsMap) rest ∧
        attribIs (((pacc2, attribsMap) :: rest).getLast (List.cons_ne_nil _ _)).2
          "atomic" "true" = false ∧
        ∀ next, ¬ atomicStep
          (((pacc2, attribsMap) :: rest).getLast (List.cons_ne_nil _ _)) next) := by
  obtain ⟨rest, hchain, hend⟩ := atomic_walk_exists pacc2 attribsMap
  rcases hend with hatomic | ⟨hnot, hstuck⟩
  · have hres := findAriaAtomic_of_chain (pacc2, attribsMap) rest hchain hatomic
    simp only at hres
    constructor
    · intro result hresult
      rw [hres] at hresult
      have heq := Option.some.inj hresult
      refine ⟨rest, hchain, heq, hatomic, ?_, ?_⟩
      · rw [← heq]
        exact chain_parent hchain
      · intro e he
        obtain ⟨b, hb⟩ := chain_dropLast_step (pacc2, attribsMap) rest hchain e he
        exact hb.1
    · constructor
      · intro hnone
        rw [hres] at hnone
        exact absurd hnone (by simp)
      · rintro ⟨rest2, hchain2, hnot2, hstuck2⟩
        have := findAriaAtomic_of_stuck (pacc2, attribsMap) rest2 hchain2 hnot2 hstuck2
        simp only at this
        rw [hres] at this
        exact absurd this (by simp)
  · have hres := findAriaAtomic_of_stuck (pacc2, attribsMap) rest hchain hnot hstuck
    simp only at hres
    constructor
    · intro result hresult
      rw [hres] at hresult
      exact absurd hresult (by simp)
    · exact ⟨fun _ => ⟨rest, hchain, hnot, hstuck⟩, fun _ => hres⟩

/-- Instance of C6: the walk from the nested item ends on its grandparent. -/
theorem findAriaAtomic_spec_witness :
    ∃ rest, List.Chain atomicStep
        (Example.nestedItem, [("container-live", "polite"), ("container-atomic", "true")])
        rest ∧
      (((Example.nestedItem,
          [("container-live", "polite"), ("container-atomic", "true")]) :: rest).getLast
        (List.cons_ne_nil _ _)).1 = Example.atomicGrandparent ∧
      attribIs (((Example.nestedItem,
          [("container-live", "polite"), ("container-atomic", "true")]) :: rest).getLast
        (List.cons_ne_nil _ _)).2 "atomic" "true" = true ∧
      Relation.ReflTransGen (fun child parent => parentIA2 child = some parent)
        Example.nestedItem Example.atomicGrandparent ∧
      ∀ e ∈ ((Example.nestedItem,
          [("container-live", "polite"), ("container-atomic", "true")]) :: rest).dropLast,
        attribIs e.2 "atomic" "true" = false :=
  (findAriaAtomic_spec Example.nestedItem
    [("container-live", "polite"), ("container-atomic", "true")]).1
    Example.atomicGrandparent rfl

/-! ## Text assembly only appends -/

section
variable {iswspace : wchar_t → Bool}

theorem hasVisibleChar_append (a b : List wchar_t) :
    hasVisibleChar iswspace (a ++ b) =
      (hasVisibleChar iswspace a || hasVisibleChar iswspace b) := by
  simp [hasVisibleChar, List.any_append]

theorem Appends.id : Appends iswspace (fun st => st) := by
  refine ⟨fun st => ?_, ?_, ?_⟩ <;> simp [hasVisibleChar]

theorem Appends.comp {F G : List wchar_t × Bool → List wchar_t × Bool}
    (hF : Appends iswspace F) (hG : Appends iswspace G) :
    Appends iswspace (fun st => G (F st)) := by
  obtain ⟨hF1, hF2, hF3⟩ := hF
  obtain ⟨hG1, hG2, hG3⟩ := hG
  have h0 : G (F ([], false)) =
      ((F ([], false)).1 ++ (G ([], false)).1, (F ([], false)).2 || (G ([], false)).2) :=
    hG1 (F ([], false))
  refine ⟨fun st => ?_, ?_, ?_⟩
  · simp only [h0]
    rw [hG1 (F st), hF1 st]
    simp [List.append_assoc, Bool.or_assoc]
  · simp only [h0, Bool.or_eq_true, hasVisibleChar_append]
    rintro (h | h)
    · exact Or.inl (hF2 h)
    · exact Or.inr (hG2 h)
  · intro hsp
    simp only [h0, Bool.or_eq_true, hasVisibleChar_append]
    rintro (h | h)
    · exact Or.inl (hF3 hsp h)
    · exact Or.inr (hG3 hsp h)

theorem Appends.congr_step {F G : List wchar_t × Bool → List wchar_t × Bool}
    (hF : Appends iswspace F) (h : ∀ st, G st = F st) : Appends iswspace G := by
  have : G = F := funext h
  rw [this]
  exact hF

/-- Appending the text of a child, as the two loops do. -/
theorem Appends.child {T : List wchar_t → List wchar_t × Bool}
    (h1 : ∀ buf, T buf = (buf ++ (T []).1, (T []).2))
    (h2 : (T []).2 = true → hasVisibleChar iswspace (T []).1 = true)
    (h3 : iswspace SPACE = true → hasVisibleChar iswspace (T []).1 = true → (T []).2 = true) :
    Appends iswspace (fun st => ((T st.1).1, st.2 || (T st.1).2)) := by
  refine ⟨fun st => ?_, ?_, ?_⟩
  · simp only [Bool.false_or]
    rw [h1 st.1]
  · simpa using h2
  · simpa using h3

theorem Appends.ite {F G : List wchar_t × Bool → List wchar_t × Bool} (c : Bool)
    (hF : Appends iswspace F) (hG : Appends iswspace G) :
    Appends iswspace (fun st => if c then F st else G st) := by
  cases c
  · exact hG.congr_step (fun st => by simp)
  · exact hF.congr_step (fun st => by simp)

theorem Appends.literal (includeTopLevelText : Bool) (realChar : wchar_t) :
    Appends iswspace (fun st =>
      if includeTopLevelText then
        (st.1 ++ [realChar],
          st.2 || (realChar != objectReplacementChar && !iswspace realChar))
      else st) := by
  cases includeTopLevelText
  · exact Appends.id.congr_step (fun st => by simp)
  · refine ⟨fun st => ?_, ?_, ?_⟩ <;> simp [hasVisibleChar]

theorem Appends.space : Appends iswspace (fun st => (st.1 ++ [SPACE], st.2)) := by
  refine ⟨fun st => ?_, ?_, ?_⟩
  · simp
  · simp
  · intro hsp
    simp [hasVisibleChar, hsp]

theorem textLoopBody_appends {expand : Int → List wchar_t × Bool → Option (List wchar_t × Bool)}
    (hexpand : ∀ offset, AppendsOpt iswspace (expand offset)) (startOffset : Int)
    (includeTopLevelText : Bool) (index : Nat) (realChar : wchar_t) :
    Appends iswspace
      (textLoopBody iswspace expand startOffset includeTopLevelText index realChar) := by
  by_cases hc : realChar = objectReplacementChar
  · rcases hexpand (wrapLong (startOffset + index)) with hnone | ⟨F, hF, hsome⟩
    · exact (Appends.literal includeTopLevelText realChar).congr_step (fun st => by
        simp [textLoopBody, hc, hnone])
    · exact hF.congr_step (fun st => by simp [textLoopBody, hc, hsome])
  · exact (Appends.literal includeTopLevelText realChar).congr_step (fun st => by
      simp [textLoopBody, hc])

theorem textLoop_appends {expand : Int → List wchar_t × Bool → Option (List wchar_t × Bool)}
    (hexpand : ∀ offset, AppendsOpt iswspace (expand offset)) (startOffset : Int)
    (includeTopLevelText : Bool) (index : Nat) (bstrText : List wchar_t) :
    Appends iswspace
      (textLoop iswspace expand startOffset includeTopLevelText index bstrText) := by
  induction bstrText generalizing index with
  | nil => exact Appends.id.congr_step (fun st => by simp [textLoop])
  | cons realChar rest ih =>
    exact ((textLoopBody_appends hexpand startOffset includeTopLevelText index
      realChar).comp (ih (index + 1))).congr_step (fun st => by simp [textLoop])

theorem textBranch_appends {expand : Int → List wchar_t × Bool → Option (List wchar_t × Bool)}
    (hexpand : ∀ offset, AppendsOpt iswspace (expand offset))
    (bstr : Option (List wchar_t × Int)) (includeTopLevelText : Bool) :
    Appends iswspace (textBranch iswspace expand bstr includeTopLevelText) := by
  cases bstr with
  | none => exact Appends.id.congr_step (fun st => by simp [textBranch])
  | some p =>
    exact ((textLoop_appends hexpand p.2 includeTopLevelText 0 p.1).comp
      Appends.space).congr_step (fun st => by simp [textBranch])

theorem appendName_appends (accName : Option (List wchar_t)) :
    Appends iswspace (appendName iswspace accName) := by
  cases accName with
  | none => exact Appends.id.congr_step (fun st => by simp [appendName])
  | some val =>
    by_cases hv : hasVisibleChar iswspace val = true
    · refine ⟨fun st => ?_, ?_, ?_⟩ <;>
        simp [appendName, hv, hasVisibleChar_append]
    · exact Appends.id.congr_step (fun st => by simp [appendName, hv])

theorem appendDescription_appends (accDescription : Option (List wchar_t)) :
    Appends iswspace (appendDescription iswspace accDescription) := by
  cases accDescription with
  | none => exact Appends.id.congr_step (fun st => by simp [appendDescription])
  | some val =>
    by_cases hv : hasVisibleChar iswspace val = true
    · refine ⟨fun st => ?_, ?_, ?_⟩ <;>
        simp [appendDescription, hv, hasVisibleChar_append]
    · exact Appends.id.congr_step (fun st => by simp [appendDescription, hv])

end

section
variable {iswspace : wchar_t → Bool}

theorem AppendsText.congr_fill {T U : List wchar_t → List wchar_t × Bool}
    (hT : AppendsText iswspace T) (h : ∀ textBuf, U textBuf = T textBuf) :
    AppendsText iswspace U := by
  have : U = T := funext h
  rw [this]
  exact hT

theorem AppendsText.of_appends {F : List wchar_t × Bool → List wchar_t × Bool}
    (hF : Appends iswspace F) : AppendsText iswspace (fun textBuf => F (textBuf, false)) := by
  obtain ⟨h1, h2, h3⟩ := hF
  refine ⟨fun textBuf => ?_, h2, h3⟩
  simp only []
  rw [h1 (textBuf, false)]
  simp

theorem AppendsText.step {T : List wchar_t → List wchar_t × Bool}
    (hT : AppendsText iswspace T) :
    Appends iswspace (fun st => ((T st.1).1, st.2 || (T st.1).2)) :=
  Appends.child hT.1 hT.2.1 hT.2.2

/-- The name and description fallback after an appending step. -/
theorem nameAndDescription_appendsText {F : List wchar_t × Bool → List wchar_t × Bool}
    (hF : Appends iswspace F) (useNewText : Bool) (accName accDescription : Option (List wchar_t)) :
    AppendsText iswspace (fun textBuf =>
      nameAndDescription iswspace useNewText accName accDescription (F (textBuf, false))) := by
  have hflag : ∀ textBuf, (F (textBuf, false)).2 = (F ([], false)).2 := by
    intro textBuf
    rw [hF.1 (textBuf, false)]
    simp
  by_cases hc : (!(F ([], false)).2 && !useNewText) = true
  · exact (AppendsText.of_appends ((hF.comp (appendName_appends accName)).comp
      (appendDescription_appends accDescription))).congr_fill (fun textBuf => by
        simp only [nameAndDescription, hflag textBuf, hc, if_true])
  · exact (AppendsText.of_appends hF).congr_fill (fun textBuf => by
      simp only [nameAndDescription, hflag textBuf, hc]
      simp)

theorem AppendsOpt.none : AppendsOpt iswspace (fun _ => none) := Or.inl (fun _ => rfl)

theorem AppendsOpt.congr_opt {E E2 : List wchar_t × Bool → Option (List wchar_t × Bool)}
    (hE : AppendsOpt iswspace E) (h : ∀ st, E2 st = E st) : AppendsOpt iswspace E2 := by
  have : E2 = E := funext h
  rw [this]
  exact hE

mutual
/-- `getTextFromIAccessible` only appends, for every object and all flags. -/
theorem getTextFromIAccessible_appendsText :
    ∀ (pacc2 : IAccessible2) (useNewText recurse includeTopLevelText : Bool),
      AppendsText iswspace (fun textBuf =>
        getTextFromIAccessible iswspace textBuf pacc2 useNewText recurse includeTopLevelText)
  | .mk _ _ varChildren paccText paccHypertext accName accDescription,
    useNewText, recurse, includeTopLevelText => by
    have hexpand : ∀ offset, AppendsOpt iswspace (fun st =>
        if recurse then getTextFromIAccessible.hypertext iswspace paccHypertext offset st
        else none) := by
      intro offset
      cases recurse
      · exact AppendsOpt.none.congr_opt (fun st => by simp)
      · exact (hypertext_appendsOpt paccHypertext offset).congr_opt (fun st => by simp)
    have hF := Appends.ite (paccText.isNone && recurse && !useNewText)
      (children_appends varChildren)
      (textBranch_appends hexpand (paccText.bind (fun t => retrieveText t useNewText))
        includeTopLevelText)
    exact (nameAndDescription_appendsText hF useNewText accName accDescription).congr_fill
      (fun textBuf => by rw [getTextFromIAccessible])
/-- The loop over the children only appends. -/
theorem children_appends :
    ∀ (varChildren : List (Option IAccessible2)),
      Appends iswspace (getTextFromIAccessible.children iswspace varChildren)
  | [] => Appends.id.congr_step (fun st => by rw [getTextFromIAccessible.children])
  | none :: rest =>
    (children_appends rest).congr_step (fun st => by rw [getTextFromIAccessible.children])
  | some pacc2Child :: rest =>
    ((Appends.ite (liveOff pacc2Child) Appends.id
      (getTextFromIAccessible_appendsText pacc2Child false true true).step).comp
      (children_appends rest)).congr_step (fun st => by rw [getTextFromIAccessible.children])
/-- The embedded object branch only appends, when it finds an object. -/
theorem hypertext_appendsOpt :
    ∀ (paccHypertext : Option (List (Int × IAccessible2))) (offset : Int),
      AppendsOpt iswspace (getTextFromIAccessible.hypertext iswspace paccHypertext offset)
  | none, _ => AppendsOpt.none.congr_opt (fun st => by rw [getTextFromIAccessible.hypertext])
  | some hyperlinks, offset =>
    (hyperlink_appendsOpt hyperlinks offset).congr_opt (fun st => by
      rw [getTextFromIAccessible.hypertext])
/-- The lookup of an embedded object only appends, when it finds an object. -/
theorem hyperlink_appendsOpt :
    ∀ (hyperlinks : List (Int × IAccessible2)) (offset : Int),
      AppendsOpt iswspace (getTextFromIAccessible.hyperlink iswspace hyperlinks offset)
  | [], _ => AppendsOpt.none.congr_opt (fun st => by rw [getTextFromIAccessible.hyperlink])
  | (linkOffset, pacc2Child) :: rest, offset => by
    by_cases h : linkOffset = offset
    · exact Or.inr ⟨_, Appends.ite (liveOff pacc2Child) Appends.id
        (getTextFromIAccessible_appendsText pacc2Child false true true).step,
        fun st => by rw [getTextFromIAccessible.hyperlink]; simp [h]⟩
    · exact (hyperlink_appendsOpt rest offset).congr_opt (fun st => by
        rw [getTextFromIAccessible.hyperlink]; simp [h])
end

end

/-! ## Unfolding `getTextFromIAccessible` -/

section
variable (iswspace : wchar_t → Bool)

/-- The buffer given to `getTextFromIAccessible` is kept, and what is appended does not
depend on it. -/
theorem getTextFromIAccessible_buffer (textBuf : List wchar_t) (pacc2 : IAccessible2)
    (useNewText recurse includeTopLevelText : Bool) :
    getTextFromIAccessible iswspace textBuf pacc2 useNewText recurse includeTopLevelText =
      (textBuf ++
        (getTextFromIAccessible iswspace [] pacc2 useNewText recurse includeTopLevelText).1,
        (getTextFromIAccessible iswspace [] pacc2 useNewText recurse includeTopLevelText).2) :=
  (getTextFromIAccessible_appendsText pacc2 useNewText recurse includeTopLevelText).1 textBuf

/-- When `getTextFromIAccessible` returns `true`, the appended text has a character that
is neither the embedded object character nor white space. -/
theorem getTextFromIAccessible_flag_sound (pacc2 : IAccessible2)
    (useNewText recurse includeTopLevelText : Bool)
    (h : (getTextFromIAccessible iswspace [] pacc2 useNewText recurse
      includeTopLevelText).2 = true) :
    hasVisibleChar iswspace
      (getTextFromIAccessible iswspace [] pacc2 useNewText recurse includeTopLevelText).1 =
      true :=
  (getTextFromIAccessible_appendsText pacc2 useNewText recurse includeTopLevelText).2.1 h

/-- The defining equation of `getTextFromIAccessible` on the answers of the object. -/
theorem getTextFromIAccessible_eq (textBuf : List wchar_t) (pacc2 : IAccessible2)
    (useNewText recurse includeTopLevelText : Bool) :
    getTextFromIAccessible iswspace textBuf pacc2 useNewText recurse includeTopLevelText =
      nameAndDescription iswspace useNewText pacc2.get_accName pacc2.get_accDescription
        (if pacc2.queryText.isNone && recurse && !useNewText then
          getTextFromIAccessible.children iswspace pacc2.accChildren (textBuf, false)
        else
          textBranch iswspace
            (fun offset st =>
              if recurse then
                getTextFromIAccessible.hypertext iswspace pacc2.queryHypertext offset st
              else none)
            (pacc2.queryText.bind (fun t => retrieveText t useNewText)) includeTopLevelText
            (textBuf, false)) := by
  cases pacc2 with
  | mk a p c t h n d =>
    rw [getTextFromIAccessible]
    rfl

/-- The embedded object branch in terms of `hyperlinkAt`. -/
theorem hypertext_eq (paccHypertext : Option (List (Int × IAccessible2))) (offset : Int)
    (st : List wchar_t × Bool) :
    getTextFromIAccessible.hypertext iswspace paccHypertext offset st =
      (hyperlinkAt paccHypertext offset).map (fun pacc2Child =>
        if liveOff pacc2Child then st
        else
          ((getTextFromIAccessible iswspace st.1 pacc2Child false true true).1,
            st.2 || (getTextFromIAccessible iswspace st.1 pacc2Child false true true).2)) := by
  cases paccHypertext with
  | none => rw [getTextFromIAccessible.hypertext]; rfl
  | some hyperlinks =>
    rw [getTextFromIAccessible.hypertext]
    simp only [hyperlinkAt, Option.some_bind]
    induction hyperlinks with
    | nil => rw [getTextFromIAccessible.hyperlink]; rfl
    | cons link rest ih =>
      obtain ⟨linkOffset, pacc2Child⟩ := link
      rw [getTextFromIAccessible.hyperlink]
      by_cases h : linkOffset = offset
      · simp [h]
      · simp [h, ih]

theorem textLoop_append (expand : Int → List wchar_t × Bool → Option (List wchar_t × Bool))
    (startOffset : Int) (includeTopLevelText : Bool) (index : Nat)
    (before : List wchar_t) (realChar : wchar_t) (after : List wchar_t) (st : List wchar_t × Bool) :
    textLoop iswspace expand startOffset includeTopLevelText index
        (before ++ realChar :: after) st =
      textLoop iswspace expand startOffset includeTopLevelText
        (index + before.length + 1) after
        (textLoopBody iswspace expand startOffset includeTopLevelText
          (index + before.length) realChar
          (textLoop iswspace expand startOffset includeTopLevelText index before st)) := by
  induction before generalizing index st with
  | nil => simp [textLoop]
  | cons c rest ih =>
    have h1 : index + 1 + rest.length = index + (rest.length + 1) := by omega
    rw [List.cons_append, textLoop, ih, textLoop, List.length_cons, h1]

/-- The character loop on a text without embedded object character. -/
theorem textLoop_plain (expand : Int → List wchar_t × Bool → Option (List wchar_t × Bool))
    (startOffset : Int) (includeTopLevelText : Bool) (index : Nat) (bstrText : List wchar_t)
    (hplain : objectReplacementChar ∉ bstrText) (st : List wchar_t × Bool) :
    textLoop iswspace expand startOffset includeTopLevelText index bstrText st =
      if includeTopLevelText then
        (st.1 ++ bstrText, st.2 || hasVisibleChar iswspace bstrText)
      else st := by
  induction bstrText generalizing index st with
  | nil => cases includeTopLevelText <;> simp [textLoop, hasVisibleChar]
  | cons c rest ih =>
    have hc : c ≠ objectReplacementChar := fun h => hplain (h ▸ List.mem_cons_self _ _)
    have hrest : objectReplacementChar ∉ rest := fun h => hplain (List.mem_cons_of_mem _ h)
    rw [textLoop, ih (index + 1) hrest]
    cases includeTopLevelText
    · simp [textLoopBody, hc]
    · simp [textLoopBody, hc, hasVisibleChar, Bool.or_assoc]

end

section
variable (iswspace : wchar_t → Bool)

/-- The text branch, split at one character of the retrieved text. -/
theorem textBranch_at_char (expand : Int → List wchar_t × Bool → Option (List wchar_t × Bool))
    (startOffset : Int) (includeTopLevelText : Bool) (before : List wchar_t) (realChar : wchar_t)
    (after : List wchar_t) (st : List wchar_t × Bool) :
    textBranch iswspace expand (some (before ++ realChar :: after, startOffset))
        includeTopLevelText st =
      ((textLoop iswspace expand startOffset includeTopLevelText (before.length + 1) after
          (textLoopBody iswspace expand startOffset includeTopLevelText before.length
            realChar
            (textLoop iswspace expand startOffset includeTopLevelText 0 before st))).1 ++
          [SPACE],
        (textLoop iswspace expand startOffset includeTopLevelText (before.length + 1) after
          (textLoopBody iswspace expand startOffset includeTopLevelText before.length
            realChar
            (textLoop iswspace expand startOffset includeTopLevelText 0 before st))).2) := by
  simp only [textBranch]
  rw [textLoop_append]
  simp only [Nat.zero_add]

/-- The loop body on an embedded object character. -/
theorem textLoopBody_embedded (expand : Int → List wchar_t × Bool → Option (List wchar_t × Bool))
    (startOffset : Int) (includeTopLevelText : Bool) (index : Nat) (st : List wchar_t × Bool) :
    textLoopBody iswspace expand startOffset includeTopLevelText index
        objectReplacementChar st =
      (expand (wrapLong (startOffset + index)) st).getD
        (if includeTopLevelText then (st.1 ++ [objectReplacementChar], st.2) else st) := by
  simp only [textLoopBody, if_true]
  cases expand (wrapLong (startOffset + index)) st <;> cases includeTopLevelText <;> simp

end

/-! ## The dispatched text -/

theorem c_str_of_not_mem (textBuf : List wchar_t) (h : NUL ∉ textBuf) :
    c_str textBuf = textBuf := by
  unfold c_str
  rw [List.takeWhile_eq_self_iff]
  intro c hc
  have hne : c ≠ NUL := fun heq => h (heq ▸ hc)
  simpa using hne

theorem c_str_append_space (t : List wchar_t) (h : NUL ∉ t) :
    c_str (t ++ [SPACE]) = t ++ [SPACE] := by
  apply c_str_of_not_mem
  intro hmem
  rw [List.mem_append] at hmem
  rcases hmem with hmem | hmem
  · exact h hmem
  · rw [List.mem_singleton] at hmem
    exact absurd hmem (by decide)

/-- When the inserted text starts with a terminator the buffer is not empty and the sink
receives the empty string. -/
theorem terminator_first_dispatches_empty :
    winEventProcHook Example.isSpace (Example.desktopOf Example.nulFirstInsertRegion)
        .IA2_EVENT_TEXT_INSERTED 1 0 0 = some [] ∧
      getTextFromIAccessible Example.isSpace [] Example.nulFirstInsertRegion
        true true true = ([NUL, 0x78, SPACE], true) :=
  ⟨by decide, by decide⟩

/-- C4, as the source has it: with `recurse = false` the hypertext interface is not
asked, and the embedded object character of the inserted text of `linkHost`, which the
hypertext interface resolves to `linkChild`, is appended as it is, not the text "here "
of that child. -/
theorem embedded_char_kept_without_recurse :
    getTextFromIAccessible Example.isSpace [] Example.linkHost true false true =
        ([objectReplacementChar, SPACE], false) ∧
      hyperlinkAt Example.linkHost.queryHypertext 1 = some Example.linkChild ∧
      getTextFromIAccessible Example.isSpace [] Example.linkChild false true true =
        ((wide "here "), true) :=
  ⟨by decide, rfl, by decide⟩

/-- C4, amended: for an object with a text interface, for all values of `useNewText` and
`includeTopLevelText`, take an embedded object character of the retrieved text, at
position `before.length`.  With `recurse = true`, when the hypertext interface resolves
its offset to a child, `getTextFromIAccessible` appends at that place the text of the
child assembled with the default flags, or nothing when the child has `live="off"`, and
not the character.  When the offset is not resolved, or `recurse = false` (the hypertext
interface is then not asked), the character is appended as it is if
`includeTopLevelText` is true and dropped if it is false.  The offset is the sum of the
start offset and the position, as a 32-bit `long`. -/
theorem embedded_object_expansion (iswspace : wchar_t → Bool) (textBuf : List wchar_t)
    (pacc2 : IAccessible2) (paccText : IAccessibleText)
    (useNewText includeTopLevelText : Bool) (before after : List wchar_t) (startOffset : Int)
    (htext : pacc2.queryText = some paccText)
    (hretrieve : retrieveText paccText useNewText =
      some (before ++ objectReplacementChar :: after, startOffset)) :
    (∀ pacc2Child,
      hyperlinkAt pacc2.queryHypertext (wrapLong (startOffset + before.length)) = some pacc2Child →
      getTextFromIAccessible iswspace textBuf pacc2 useNewText true includeTopLevelText =
        nameAndDescription iswspace useNewText pacc2.get_accName pacc2.get_accDescription
          (let expand := fun offset st =>
              getTextFromIAccessible.hypertext iswspace pacc2.queryHypertext offset st
           let st1 := textLoop iswspace expand startOffset includeTopLevelText 0 before
              (textBuf, false)
           let st2 :=
              if liveOff pacc2Child then st1
              else
                (st1.1 ++ (getTextFromIAccessible iswspace [] pacc2Child false true true).1,
                  st1.2 || (getTextFromIAccessible iswspace [] pacc2Child false true true).2)
           let st3 := textLoop iswspace expand startOffset includeTopLevelText
              (before.length + 1) after st2
           (st3.1 ++ [SPACE], st3.2))) ∧
    (∀ recurse : Bool,
      (recurse = false ∨
        hyperlinkAt pacc2.queryHypertext (wrapLong (startOffset + before.length)) = none) →
      getTextFromIAccessible iswspace textBuf pacc2 useNewText recurse includeTopLevelText =
        nameAndDescription iswspace useNewText pacc2.get_accName pacc2.get_accDescription
          (let expand := fun offset st =>
              if recurse then
                getTextFromIAccessible.hypertext iswspace pacc2.queryHypertext offset st
              else none
           let st1 := textLoop iswspace expand startOffset includeTopLevelText 0 before
              (textBuf, false)
           let st2 :=
              if includeTopLevelText then (st1.1 ++ [objectReplacementChar], st1.2)
              else st1
           let st3 := textLoop iswspace expand startOffset includeTopLevelText
              (before.length + 1) after st2
           (st3.1 ++ [SPACE], st3.2))) := by
  constructor
  · intro pacc2Child hlink
    rw [getTextFromIAccessible_eq]
    simp only [htext, Option.isNone_some, Bool.false_and, Bool.false_eq_true, if_false,
      Option.some_bind, hretrieve, if_true]
    rw [textBranch_at_char, textLoopBody_embedded]
    generalize textLoop iswspace
      (fun offset st =>
        getTextFromIAccessible.hypertext iswspace pacc2.queryHypertext offset st)
      startOffset includeTopLevelText 0 before (textBuf, false) = st1
    have hstep : (getTextFromIAccessible.hypertext iswspace pacc2.queryHypertext
        (wrapLong (startOffset + (before.length : Int))) st1).getD
          (if includeTopLevelText = true then (st1.1 ++ [objectReplacementChar], st1.2)
           else st1) =
        if liveOff pacc2Child = true then st1
        else
          (st1.1 ++ (getTextFromIAccessible iswspace [] pacc2Child false true true).1,
            st1.2 || (getTextFromIAccessible iswspace [] pacc2Child false true true).2) := by
      rw [hypertext_eq, hlink]
      simp only [Option.map_some', Option.getD_some]
      rw [getTextFromIAccessible_buffer]
    simp only [hstep]
  · intro recurse hfail
    rw [getTextFromIAccessible_eq]
    simp only [htext, Option.isNone_some, Bool.false_and, Bool.false_eq_true, if_false,
      Option.some_bind, hretrieve]
    rw [textBranch_at_char, textLoopBody_embedded]
    generalize textLoop iswspace
      (fun offset st =>
        if recurse = true then
          getTextFromIAccessible.hypertext iswspace pacc2.queryHypertext offset st
        else none)
      startOffset includeTopLevelText 0 before (textBuf, false) = st1
    have hstep : (if recurse = true then
          getTextFromIAccessible.hypertext iswspace pacc2.queryHypertext
            (wrapLong (startOffset + (before.length : Int))) st1
        else none) = none := by
      rcases hfail with hr | hl
      · simp [hr]
      · rw [hypertext_eq, hl]
        simp
    simp only [hstep, Option.getD_none]

/-- Instance of C4, amended: in the full text of `linkHost` the embedded object
character at offset 1 is replaced by the text "here " of `linkChild`; and in the
inserted text of `wrappedLinkHost` the embedded object character, whose offset is the
sum `2147483647+1` of two `long`, is replaced by the child found at `-2147483648`. -/
theorem embedded_object_expansion_witness :
    getTextFromIAccessible Example.isSpace [] Example.linkHost false true true =
        ((wide "ahere b "), true) ∧
      getTextFromIAccessible Example.isSpace [] Example.wrappedLinkHost true true true =
        ((wide "ahere  "), true) := by
  have h := (embedded_object_expansion Example.isSpace [] Example.linkHost
    { get_text := some [0x61, objectReplacementChar, 0x62],
      get_newText := some { text := some [objectReplacementChar], start := 1 } }
    false true [0x61] [0x62] 0 rfl rfl).1 Example.linkChild rfl
  have h2 := (embedded_object_expansion Example.isSpace [] Example.wrappedLinkHost
    { get_text := none,
      get_newText := some { text := some [0x61, objectReplacementChar],
                            start := 2147483647 } }
    true true [0x61] [] 2147483647 rfl rfl).1 Example.linkChild rfl
  rw [h, h2]
  constructor <;> decide

/-! ## Inserted text -/

/-- C7, as the source has it: the inserted text "a", terminator, "b" has no embedded
object character and has a character that is not white space, and the sink receives
"a", not the text followed by a space: `nvdaController_speakText` is given
`textBuf.c_str()`. -/
theorem inserted_text_cut_at_terminator :
    winEventProcHook Example.isSpace (Example.desktopOf Example.nulInsertRegion)
        .IA2_EVENT_TEXT_INSERTED 1 0 0 = some (wide "a") ∧
      getTextFromIAccessible Example.isSpace [] Example.nulInsertRegion true true true =
        ([0x61, NUL, 0x62] ++ [SPACE], true) ∧
      objectReplacementChar ∉ ([0x61, NUL, 0x62] : List wchar_t) ∧
      Example.isSpace 0x61 = false ∧
      wide "a" ≠ [0x61, NUL, 0x62] ++ [SPACE] :=
  ⟨by decide, by decide, by decide, by decide, by decide⟩

/-- C7, amended: for a text-inserted or text-updated event that passes the filters on
the window, the state, the role and the interfaces, on an object whose attributes have
an active `container-live`, no `container-busy="true"`, a `container-relevant` that
allows additions and text, and no atomic scope, and whose new text `t` has no embedded
object character and has a character that is not white space, the sink receives `t`
followed by one space, up to the first terminator: exactly `t` followed by one space
when `t` has no terminator. -/
theorem inserted_text_is_dispatched (iswspace : wchar_t → Bool) (desktop : Desktop)
    (eventID : EventID) (hwnd : Nat) (objectID childID : Int) (pacc2 : IAccessible2)
    (attribsMap : AttribsMap) (paccText : IAccessibleText) (newSeg : IA2TextSegment)
    (t : List wchar_t)
    (hevent : eventID = .IA2_EVENT_TEXT_INSERTED ∨ eventID = .IA2_EVENT_TEXT_UPDATED)
    (hobj : eventObject desktop eventID hwnd objectID childID = some pacc2)
    (hattr : fetchIA2Attributes pacc2 = some attribsMap)
    (hlive : isLive attribsMap = true)
    (hbusy : attribIs attribsMap "container-busy" "true" = false)
    (hrel : relevantSet attribsMap = (true, true))
    (hatomic : findAriaAtomic pacc2 attribsMap = none)
    (htext : pacc2.queryText = some paccText)
    (hnew : paccText.get_newText = some newSeg)
    (hseg : newSeg.text = some t)
    (hplain : objectReplacementChar ∉ t)
    (hvisible : ∃ c ∈ t, iswspace c = false) :
    winEventProcHook iswspace desktop eventID hwnd objectID childID =
        some (c_str (t ++ [SPACE])) ∧
      (NUL ∉ t →
        winEventProcHook iswspace desktop eventID hwnd objectID childID =
          some (t ++ [SPACE])) := by
  have hvis : hasVisibleChar iswspace t = true := by
    obtain ⟨c, hc, hw⟩ := hvisible
    simp only [hasVisibleChar, List.any_eq_true]
    refine ⟨c, hc, ?_⟩
    have hne : c ≠ objectReplacementChar := fun h => hplain (h ▸ hc)
    simp [hne, hw]
  have hget : getTextFromIAccessible iswspace [] pacc2 true true true = (t ++ [SPACE], true) := by
    rw [getTextFromIAccessible_eq]
    simp only [htext, Option.isNone_some, Bool.false_and, Bool.false_eq_true, if_false,
      Option.some_bind, retrieveText, if_true, hnew, hseg, textBranch]
    rw [textLoop_plain iswspace _ _ _ _ _ hplain]
    simp [nameAndDescription, hvis]
  have hcollect : collectText iswspace eventID pacc2 attribsMap true true =
      (t ++ [SPACE], true) := by
    unfold collectText
    rw [hatomic]
    rcases hevent with he | he <;> subst he <;> exact hget
  have hhook : winEventProcHook iswspace desktop eventID hwnd objectID childID =
      some (c_str (t ++ [SPACE])) := by
    unfold winEventProcHook
    rw [hobj]
    simp only []
    rw [handleObject_of_live iswspace eventID pacc2 attribsMap hattr hlive hbusy, hrel]
    rcases hevent with he | he <;> subst he <;> simp [hcollect]
  refine ⟨hhook, fun hnul => ?_⟩
  rw [hhook, c_str_append_space t hnul]

/-- Instance of C7, amended: the inserted text "Sold out" is dispatched as
"Sold out ". -/
theorem inserted_text_is_dispatched_witness :
    winEventProcHook Example.isSpace (Example.desktopOf Example.soldOutRegion)
      .IA2_EVENT_TEXT_INSERTED 1 0 0 = some (wide "Sold out ") :=
  (inserted_text_is_dispatched Example.isSpace (Example.desktopOf Example.soldOutRegion)
    .IA2_EVENT_TEXT_INSERTED 1 0 0 Example.soldOutRegion
    [("container-live", "polite"), ("container-relevant", "additions text")]
    { get_text := some (wide "Sold out"),
      get_newText := some { text := some (wide "Sold out"), start := 0 } }
    { text := some (wide "Sold out"), start := 0 } (wide "Sold out")
    (Or.inl rfl) rfl rfl (by decide) (by decide) (by decide) rfl rfl rfl rfl (by decide)
    ⟨0x53, by decide, by decide⟩).2 (by decide)

/-! ## The filters on the window and on the object -/

/-- C11: for every event whose window is not visible, or is neither the foreground
window nor a child of the foreground window, `winEventProcHook` dispatches no text,
whatever the event type and the attributes of the object. -/
theorem hidden_window_dispatches_nothing (iswspace : wchar_t → Bool) (desktop : Desktop)
    (eventID : EventID) (hwnd : Nat) (objectID childID : Int)
    (h : desktop.IsWindowVisible hwnd = false ∨
      (hwnd ≠ desktop.GetForegroundWindow ∧
        desktop.IsChild desktop.GetForegroundWindow hwnd = false)) :
    winEventProcHook iswspace desktop eventID hwnd objectID childID = none := by
  unfold winEventProcHook
  rw [eventObject_eq]
  have hcond : ¬ (desktop.IsWindowVisible hwnd = true ∧
      (hwnd = desktop.GetForegroundWindow ∨
        desktop.IsChild desktop.GetForegroundWindow hwnd = true) ∧
      eventID.handled = true) := by
    rintro ⟨hv, hf, -⟩
    rcases h with h | ⟨h1, h2⟩
    · rw [h] at hv
      exact absurd hv (by simp)
    · rcases hf with hf | hf
      · exact h1 hf
      · rw [h2] at hf
        exact absurd hf (by simp)
  rw [if_neg hcond]

/-- Instance of C11: a name change in a window that is not visible. -/
theorem hidden_window_dispatches_nothing_witness :
    winEventProcHook Example.isSpace (Example.hiddenWindowDesktop Example.politeRegion)
        .EVENT_OBJECT_NAMECHANGE 2 0 0 = none ∧
      winEventProcHook Example.isSpace (Example.hiddenWindowDesktop Example.politeRegion)
        .EVENT_OBJECT_NAMECHANGE 1 0 0 = some (wide "Cart") :=
  ⟨hidden_window_dispatches_nothing Example.isSpace
    (Example.hiddenWindowDesktop Example.politeRegion) .EVENT_OBJECT_NAMECHANGE 2 0 0
    (Or.inl rfl), by decide⟩

/-- C19: `useIAccessibleForLiveRegionUpdate` returns `false` if and only if the state of
the object includes the invisible flag, or the role of the object is static text and the
object does not support the hyperlink interface; hence an event on such an object never
causes a dispatch. -/
theorem useIAccessibleForLiveRegionUpdate_spec (pacc : IAccessible) :
    (useIAccessibleForLiveRegionUpdate pacc = false ↔
      ((∃ lVal, pacc.get_accState = some lVal ∧ lVal &&& STATE_SYSTEM_INVISIBLE ≠ 0) ∨
        (pacc.get_accRole = some ROLE_SYSTEM_STATICTEXT ∧ pacc.queryHyperlink = false))) ∧
    (useIAccessibleForLiveRegionUpdate pacc = false →
      ∀ (iswspace : wchar_t → Bool) (desktop : Desktop) (eventID : EventID) (hwnd : Nat)
        (objectID childID : Int),
        desktop.AccessibleObjectFromEvent hwnd objectID childID = some pacc →
        winEventProcHook iswspace desktop eventID hwnd objectID childID = none) := by
  constructor
  · unfold useIAccessibleForLiveRegionUpdate
    cases hs : pacc.get_accState with
    | none =>
      by_cases hr : pacc.get_accRole = some ROLE_SYSTEM_STATICTEXT
      · cases hq : pacc.queryHyperlink <;> simp [hr, hq]
      · simp [hr]
    | some lVal =>
      by_cases hi : lVal &&& STATE_SYSTEM_INVISIBLE = 0
      · by_cases hr : pacc.get_accRole = some ROLE_SYSTEM_STATICTEXT
        · cases hq : pacc.queryHyperlink <;> simp [hi, hr, hq]
        · simp [hi, hr]
      · simp [hi]
  · intro huse iswspace desktop eventID hwnd objectID childID hacc
    have hobj : eventObject desktop eventID hwnd objectID childID = none := by
      rw [eventObject_eq]
      split
      · simp [hacc, huse]
      · rfl
    unfold winEventProcHook
    rw [hobj]

/-- Instance of C19: a name change on an object whose state has the invisible flag. -/
theorem useIAccessibleForLiveRegionUpdate_spec_witness :
    winEventProcHook Example.isSpace
        (Example.invisibleObjectDesktop Example.politeRegion)
        .EVENT_OBJECT_NAMECHANGE 1 0 0 = none :=
  (useIAccessibleForLiveRegionUpdate_spec
    { get_accState := some 0x8000, get_accRole := none, queryHyperlink := false,
      queryServiceProvider := some { QueryService := some Example.politeRegion } }).2
    (by decide) Example.isSpace (Example.invisibleObjectDesktop Example.politeRegion)
    .EVENT_OBJECT_NAMECHANGE 1 0 0 rfl

/-! ## Events that reach the text selection -/

/-- An event that passes every filter dispatches what the test of line 376 lets through
of the collected text. -/
theorem winEventProcHook_of_pass (iswspace : wchar_t → Bool) (desktop : Desktop)
    (eventID : EventID) (hwnd : Nat) (objectID childID : Int) (pacc2 : IAccessible2)
    (attribsMap : AttribsMap)
    (hobj : eventObject desktop eventID hwnd objectID childID = some pacc2)
    (hattr : fetchIA2Attributes pacc2 = some attribsMap)
    (hlive : isLive attribsMap = true)
    (hbusy : attribIs attribsMap "container-busy" "true" = false)
    (hrel : (relevantSet attribsMap).1 = true ∨ (relevantSet attribsMap).2 = true)
    (hshow : eventID = .EVENT_OBJECT_SHOW →
      (relevantSet attribsMap).1 = true ∧ ignoreShowEvent pacc2 = false)
    (hname : eventID = .EVENT_OBJECT_NAMECHANGE ∨ eventID = .EVENT_OBJECT_DESCRIPTIONCHANGE →
      (relevantSet attribsMap).2 = true) :
    winEventProcHook iswspace desktop eventID hwnd objectID childID =
      dispatchCheck (collectText iswspace eventID pacc2 attribsMap
        (relevantSet attribsMap).1 (relevantSet attribsMap).2) := by
  unfold winEventProcHook
  rw [hobj]
  simp only []
  rw [handleObject_of_live iswspace eventID pacc2 attribsMap hattr hlive hbusy]
  have h1 : ¬ ((relevantSet attribsMap).1 = false ∧ (relevantSet attribsMap).2 = false) := by
    rintro ⟨ha, ht⟩
    rcases hrel with h | h
    · rw [ha] at h
      exact absurd h (by simp)
    · rw [ht] at h
      exact absurd h (by simp)
  have h2 : ¬ (eventID = .EVENT_OBJECT_SHOW ∧ (relevantSet attribsMap).1 = false) := by
    rintro ⟨he, ha⟩
    rw [(hshow he).1] at ha
    exact absurd ha (by simp)
  have h3 : ¬ (eventID = .EVENT_OBJECT_SHOW ∧ ignoreShowEvent pacc2 = true) := by
    rintro ⟨he, hi⟩
    rw [(hshow he).2] at hi
    exact absurd hi (by simp)
  have h4 : ¬ ((relevantSet attribsMap).2 = false ∧
      (eventID = .EVENT_OBJECT_NAMECHANGE ∨ eventID = .EVENT_OBJECT_DESCRIPTIONCHANGE)) := by
    rintro ⟨ht, he⟩
    rw [hname he] at ht
    exact absurd ht (by simp)
  rw [if_neg h1, if_neg h2, if_neg h3, if_neg h4]
  rfl

theorem ignoreShowEvent_eq_false (pacc2 : IAccessible2) :
    ignoreShowEvent pacc2 = false ↔
      (pacc2.get_accParent = none ∨
        ∃ pdispParent pacc2Parent parentAttribsMap,
          pacc2.get_accParent = some pdispParent ∧ pdispParent.queryText = false ∧
          pdispParent.queryIA2 = some pacc2Parent ∧
          fetchIA2Attributes pacc2Parent = some parentAttribsMap ∧
          isLive parentAttribsMap = true) := by
  unfold ignoreShowEvent
  cases hp : pacc2.get_accParent with
  | none => simp
  | some pdispParent =>
    cases ht : pdispParent.queryText with
    | true => simp [ht]
    | false =>
      cases hq : pdispParent.queryIA2 with
      | none => simp [ht, hq]
      | some pacc2Parent =>
        cases hf : fetchIA2Attributes pacc2Parent with
        | none => simp [ht, hq, hf]
        | some parentAttribsMap => simp [ht, hq, hf]

/-- C12, as the source has it: a "shown" event on a polite live region without parent is
not discarded by the show-event rule, and its name is dispatched. -/
theorem shown_without_parent_is_dispatched :
    winEventProcHook Example.isSpace (Example.desktopOf Example.politeRegion)
        .EVENT_OBJECT_SHOW 1 0 0 = some (wide "Cart ") ∧
      ignoreShowEvent Example.politeRegion = false ∧
      Example.politeRegion.get_accParent = none :=
  ⟨by decide, by decide, rfl⟩

/-- C12, amended: a "shown" event is not discarded by the show-event rule exactly when
the object has no parent, or has a parent that exposes no text interface, answers as an
`IAccessible2` object, and has attributes that can be fetched and carry an active
`container-live`; every "shown" event that leads to a dispatch is of that kind. -/
theorem show_event_rule (pacc2 : IAccessible2) :
    (ignoreShowEvent pacc2 = false ↔
      (pacc2.get_accParent = none ∨
        ∃ pdispParent pacc2Parent parentAttribsMap,
          pacc2.get_accParent = some pdispParent ∧ pdispParent.queryText = false ∧
          pdispParent.queryIA2 = some pacc2Parent ∧
          fetchIA2Attributes pacc2Parent = some parentAttribsMap ∧
          isLive parentAttribsMap = true)) ∧
    (∀ (iswspace : wchar_t → Bool) (desktop : Desktop) (hwnd : Nat) (objectID childID : Int)
        (text : List wchar_t),
      sourceObject desktop hwnd objectID childID = some pacc2 →
      winEventProcHook iswspace desktop .EVENT_OBJECT_SHOW hwnd objectID childID =
        some text →
      pacc2.get_accParent = none ∨
        ∃ pdispParent pacc2Parent parentAttribsMap,
          pacc2.get_accParent = some pdispParent ∧ pdispParent.queryText = false ∧
          pdispParent.queryIA2 = some pacc2Parent ∧
          fetchIA2Attributes pacc2Parent = some parentAttribsMap ∧
          isLive parentAttribsMap = true) := by
  refine ⟨ignoreShowEvent_eq_false pacc2, ?_⟩
  intro iswspace desktop hwnd objectID childID text hsrc h
  obtain ⟨p, hobj, hh⟩ := winEventProcHook_eq_some h
  have hp := eventObject_sourceObject hobj
  rw [hsrc] at hp
  cases hp
  obtain ⟨attribsMap, -, -, -, -, hshow, -⟩ := handleObject_eq_some hh
  exact (ignoreShowEvent_eq_false pacc2).1 (hshow rfl).2

/-- Instance of C12, amended: the "shown" event on `shownItem`, whose parent is a polite
live region without text interface. -/
theorem show_event_rule_witness :
    winEventProcHook Example.isSpace (Example.desktopOf Example.shownItem)
        .EVENT_OBJECT_SHOW 1 0 0 = some (wide "New item ") ∧
      (Example.shownItem.get_accParent = none ∨
        ∃ pdispParent pacc2Parent parentAttribsMap,
          Example.shownItem.get_accParent = some pdispParent ∧
          pdispParent.queryText = false ∧
          pdispParent.queryIA2 = some pacc2Parent ∧
          fetchIA2Attributes pacc2Parent = some parentAttribsMap ∧
          isLive parentAttribsMap = true) :=
  ⟨by decide,
    (show_event_rule Example.shownItem).2 Example.isSpace
      (Example.desktopOf Example.shownItem) 1 0 0 (wide "New item ") rfl (by decide)⟩

/-- C13, as the source has it: the "shown" event on `nulShownItem`, whose text is "a",
terminator, "b", passes every filter and its assembly returns `true`, and the sink
receives "a", not the assembled text: `nvdaController_speakText` is given
`textBuf.c_str()`. -/
theorem shown_text_cut_at_terminator :
    winEventProcHook Example.isSpace (Example.desktopOf Example.nulShownItem)
        .EVENT_OBJECT_SHOW 1 0 0 = some (wide "a") ∧
      getTextFromIAccessible Example.isSpace [] Example.nulShownItem false true true =
        ([0x61, NUL, 0x62, SPACE], true) ∧
      ignoreShowEvent Example.nulShownItem = false ∧
      wide "a" ≠ [0x61, NUL, 0x62, SPACE] :=
  ⟨by decide, by decide, by decide, by decide⟩

/-- C13, amended: for a "shown" event that passes the filters on the window, the state,
the role, the interfaces, `container-live`, `container-busy` and the relevance, on an
object without atomic scope whose parent exists, exposes no text interface and has
attributes that can be fetched and carry an active `container-live`, the sink receives
the text that `getTextFromIAccessible` assembles from the object with the default
flags, up to its first terminator, provided that assembly returned `true`: exactly the
assembled text when it has no terminator. -/
theorem shown_item_is_dispatched (iswspace : wchar_t → Bool) (desktop : Desktop)
    (hwnd : Nat) (objectID childID : Int) (pacc2 : IAccessible2) (attribsMap : AttribsMap)
    (pdispParent : IDispatch) (pacc2Parent : IAccessible2) (parentAttribsMap : AttribsMap)
    (hobj : eventObject desktop .EVENT_OBJECT_SHOW hwnd objectID childID = some pacc2)
    (hattr : fetchIA2Attributes pacc2 = some attribsMap)
    (hlive : isLive attribsMap = true)
    (hbusy : attribIs attribsMap "container-busy" "true" = false)
    (hrel : (relevantSet attribsMap).1 = true)
    (hatomic : findAriaAtomic pacc2 attribsMap = none)
    (hparent : pacc2.get_accParent = some pdispParent)
    (hnotext : pdispParent.queryText = false)
    (hia2 : pdispParent.queryIA2 = some pacc2Parent)
    (hpattr : fetchIA2Attributes pacc2Parent = some parentAttribsMap)
    (hplive : isLive parentAttribsMap = true)
    (hgot : (getTextFromIAccessible iswspace [] pacc2 false true true).2 = true) :
    winEventProcHook iswspace desktop .EVENT_OBJECT_SHOW hwnd objectID childID =
        some (c_str (getTextFromIAccessible iswspace [] pacc2 false true true).1) ∧
      (NUL ∉ (getTextFromIAccessible iswspace [] pacc2 false true true).1 →
        winEventProcHook iswspace desktop .EVENT_OBJECT_SHOW hwnd objectID childID =
          some (getTextFromIAccessible iswspace [] pacc2 false true true).1) := by
  have hignore : ignoreShowEvent pacc2 = false :=
    (ignoreShowEvent_eq_false pacc2).2
      (Or.inr ⟨pdispParent, pacc2Parent, parentAttribsMap, hparent, hnotext, hia2, hpattr,
        hplive⟩)
  rw [winEventProcHook_of_pass iswspace desktop .EVENT_OBJECT_SHOW hwnd objectID childID
    pacc2 attribsMap hobj hattr hlive hbusy (Or.inl hrel) (fun _ => ⟨hrel, hignore⟩)
    (fun h => by rcases h with h | h <;> cases h)]
  have hcollect : collectText iswspace .EVENT_OBJECT_SHOW pacc2 attribsMap
      (relevantSet attribsMap).1 (relevantSet attribsMap).2 =
      getTextFromIAccessible iswspace [] pacc2 false true true := by
    unfold collectText
    rw [hatomic]
  rw [hcollect]
  have hvis := getTextFromIAccessible_flag_sound iswspace pacc2 false true true hgot
  have hne : (getTextFromIAccessible iswspace [] pacc2 false true true).1 ≠ [] := by
    intro hnil
    rw [hnil] at hvis
    simp [hasVisibleChar] at hvis
  have hdispatch : dispatchCheck (getTextFromIAccessible iswspace [] pacc2 false true true) =
      some (c_str (getTextFromIAccessible iswspace [] pacc2 false true true).1) := by
    simp [dispatchCheck, hgot, hne]
  rw [hdispatch]
  refine ⟨rfl, fun hnul => ?_⟩
  rw [c_str_of_not_mem _ hnul]

/-- Instance of C13, amended: the "shown" event on `shownItem` dispatches
"New item ". -/
theorem shown_item_is_dispatched_witness :
    getTextFromIAccessible Example.isSpace [] Example.shownItem false true true =
        ((wide "New item "), true) ∧
      winEventProcHook Example.isSpace (Example.desktopOf Example.shownItem)
        .EVENT_OBJECT_SHOW 1 0 0 =
        some (getTextFromIAccessible Example.isSpace [] Example.shownItem
          false true true).1 :=
  ⟨by decide,
    (shown_item_is_dispatched Example.isSpace (Example.desktopOf Example.shownItem) 1 0 0
      Example.shownItem [("container-live", "polite")] (.mk false (some Example.listRegion))
      Example.listRegion [("container-live", "polite")]
      rfl rfl (by decide) (by decide) (by decide) rfl rfl rfl rfl rfl (by decide)
      (by decide)).2 (by decide)⟩

/-- C16: for an event that passes every filter, the text that `winEventProcHook` hands
to the dispatch test is, when `findAriaAtomic` gives an object, the text of that object
assembled with the default flags, whatever the event type; otherwise it is the name of
the object for a name change, its description for a description change, its text
assembled with the default flags for a "shown" event, and for a text-inserted or
text-updated event its text assembled with `useNewText = true`,
`recurse = allowAdditions` and `includeTopLevelText = allowText`. -/
theorem text_selection (iswspace : wchar_t → Bool) (desktop : Desktop)
    (eventID : EventID) (hwnd : Nat) (objectID childID : Int) (pacc2 : IAccessible2)
    (attribsMap : AttribsMap)
    (hobj : eventObject desktop eventID hwnd objectID childID = some pacc2)
    (hattr : fetchIA2Attributes pacc2 = some attribsMap)
    (hlive : isLive attribsMap = true)
    (hbusy : attribIs attribsMap "container-busy" "true" = false)
    (hrel : (relevantSet attribsMap).1 = true ∨ (relevantSet attribsMap).2 = true)
    (hshow : eventID = .EVENT_OBJECT_SHOW →
      (relevantSet attribsMap).1 = true ∧ ignoreShowEvent pacc2 = false)
    (hname : eventID = .EVENT_OBJECT_NAMECHANGE ∨ eventID = .EVENT_OBJECT_DESCRIPTIONCHANGE →
      (relevantSet attribsMap).2 = true) :
    (∀ pacc2Atomic, findAriaAtomic pacc2 attribsMap = some pacc2Atomic →
      winEventProcHook iswspace desktop eventID hwnd objectID childID =
        dispatchCheck (getTextFromIAccessible iswspace [] pacc2Atomic false true true)) ∧
    (findAriaAtomic pacc2 attribsMap = none →
      (eventID = .EVENT_OBJECT_NAMECHANGE →
        winEventProcHook iswspace desktop eventID hwnd objectID childID =
          (pacc2.get_accName).bind (fun name => dispatchCheck (name, true))) ∧
      (eventID = .EVENT_OBJECT_DESCRIPTIONCHANGE →
        winEventProcHook iswspace desktop eventID hwnd objectID childID =
          (pacc2.get_accDescription).bind (fun desc => dispatchCheck (desc, true))) ∧
      (eventID = .EVENT_OBJECT_SHOW →
        winEventProcHook iswspace desktop eventID hwnd objectID childID =
          dispatchCheck (getTextFromIAccessible iswspace [] pacc2 false true true)) ∧
      (eventID = .IA2_EVENT_TEXT_INSERTED ∨ eventID = .IA2_EVENT_TEXT_UPDATED →
        winEventProcHook iswspace desktop eventID hwnd objectID childID =
          dispatchCheck (getTextFromIAccessible iswspace [] pacc2 true
            (relevantSet attribsMap).1 (relevantSet attribsMap).2))) := by
  have hpass := winEventProcHook_of_pass iswspace desktop eventID hwnd objectID childID
    pacc2 attribsMap hobj hattr hlive hbusy hrel hshow hname
  constructor
  · intro pacc2Atomic hatomic
    rw [hpass]
    unfold collectText
    rw [hatomic]
  · intro hatomic
    refine ⟨?_, ?_, ?_, ?_⟩
    · intro he
      rw [hpass]
      unfold collectText
      rw [hatomic]
      subst he
      cases pacc2.get_accName <;> simp [dispatchCheck]
    · intro he
      rw [hpass]
      unfold collectText
      rw [hatomic]
      subst he
      cases pacc2.get_accDescription <;> simp [dispatchCheck]
    · intro he
      rw [hpass]
      unfold collectText
      rw [hatomic]
      subst he
      rfl
    · intro he
      rw [hpass]
      unfold collectText
      rw [hatomic]
      rcases he with he | he <;> subst he <;> rfl

/-- Instance of C16: a name change on `nestedItem`, whose atomic scope is
`atomicGrandparent`, dispatches the text "Status " of that scope. -/
theorem text_selection_witness :
    winEventProcHook Example.isSpace (Example.desktopOf Example.nestedItem)
        .EVENT_OBJECT_NAMECHANGE 1 0 0 =
      dispatchCheck
        (getTextFromIAccessible Example.isSpace [] Example.atomicGrandparent
          false true true) ∧
    dispatchCheck
        (getTextFromIAccessible Example.isSpace [] Example.atomicGrandparent
          false true true) = some (wide "Status ") :=
  ⟨(text_selection Example.isSpace (Example.desktopOf Example.nestedItem)
      .EVENT_OBJECT_NAMECHANGE 1 0 0 Example.nestedItem
      [("container-live", "polite"), ("container-atomic", "true")]
      rfl rfl (by decide) (by decide) (by decide)
      (fun h => by cases h) (fun _ => by decide)).1 Example.atomicGrandparent rfl,
   by decide⟩

/-! ## Properties of the text assembly -/

/-- C14: text assembly only appends and does not depend on the buffer: for every object
and all flags there are a string and a flag such that, for every initial buffer,
`getTextFromIAccessible` returns that flag and the buffer followed by that string; so
the buffer is a prefix of the result, and assembling the same tree again, into any
buffer, gives the same string and the same flag. -/
theorem getTextFromIAccessible_append_only (iswspace : wchar_t → Bool) (pacc2 : IAccessible2)
    (useNewText recurse includeTopLevelText : Bool) :
    ∃ (appended : List wchar_t) (gotText : Bool), ∀ textBuf : List wchar_t,
      getTextFromIAccessible iswspace textBuf pacc2 useNewText recurse
          includeTopLevelText = (textBuf ++ appended, gotText) ∧
        textBuf <+: (getTextFromIAccessible iswspace textBuf pacc2 useNewText recurse
          includeTopLevelText).1 := by
  refine ⟨(getTextFromIAccessible iswspace [] pacc2 useNewText recurse
    includeTopLevelText).1,
    (getTextFromIAccessible iswspace [] pacc2 useNewText recurse includeTopLevelText).2,
    fun textBuf => ?_⟩
  have h := getTextFromIAccessible_buffer iswspace textBuf pacc2 useNewText recurse
    includeTopLevelText
  refine ⟨h, ?_⟩
  rw [h]
  exact List.prefix_append _ _

/-- C15: for every object and all flags, `getTextFromIAccessible` returns `true` if and
only if the text it appended to the buffer during the call has a character that is
neither white space nor the embedded object character.  Here `iswspace` is any
classification for which the space character is white space. -/
theorem getTextFromIAccessible_flag_iff (iswspace : wchar_t → Bool)
    (hspace : iswspace SPACE = true) (textBuf : List wchar_t) (pacc2 : IAccessible2)
    (useNewText recurse includeTopLevelText : Bool) :
    ∃ appended : List wchar_t,
      (getTextFromIAccessible iswspace textBuf pacc2 useNewText recurse
        includeTopLevelText).1 = textBuf ++ appended ∧
      ((getTextFromIAccessible iswspace textBuf pacc2 useNewText recurse
          includeTopLevelText).2 = true ↔
        ∃ c ∈ appended, c ≠ objectReplacementChar ∧ iswspace c = false) := by
  have happ : AppendsText iswspace (fun textBuf =>
      getTextFromIAccessible iswspace textBuf pacc2 useNewText recurse
        includeTopLevelText) :=
    getTextFromIAccessible_appendsText pacc2 useNewText recurse includeTopLevelText
  have h := getTextFromIAccessible_buffer iswspace textBuf pacc2 useNewText recurse
    includeTopLevelText
  refine ⟨(getTextFromIAccessible iswspace [] pacc2 useNewText recurse
    includeTopLevelText).1, by rw [h], ?_⟩
  rw [h]
  simp only []
  have hvis : hasVisibleChar iswspace
      (getTextFromIAccessible iswspace [] pacc2 useNewText recurse includeTopLevelText).1 =
        true ↔
      ∃ c ∈ (getTextFromIAccessible iswspace [] pacc2 useNewText recurse
        includeTopLevelText).1, c ≠ objectReplacementChar ∧ iswspace c = false := by
    simp [hasVisibleChar]
  rw [← hvis]
  exact ⟨happ.2.1, happ.2.2 hspace⟩

/-- Instance of C15: the text branch of `linkChild` appends "here " and returns `true`. -/
theorem getTextFromIAccessible_flag_iff_witness :
    ∃ appended : List wchar_t,
      (getTextFromIAccessible Example.isSpace (wide "x") Example.linkChild
        false true true).1 = (wide "x") ++ appended ∧
      ((getTextFromIAccessible Example.isSpace (wide "x") Example.linkChild
          false true true).2 = true ↔
        ∃ c ∈ appended, c ≠ objectReplacementChar ∧ Example.isSpace c = false) :=
  getTextFromIAccessible_flag_iff Example.isSpace (by decide) (wide "x")
    Example.linkChild false true true

theorem children_filter (iswspace : wchar_t → Bool) (varChildren : List (Option IAccessible2))
    (st : List wchar_t × Bool) :
    getTextFromIAccessible.children iswspace
        (varChildren.filter (fun child =>
          match child with
          | some pacc2Child => !liveOff pacc2Child
          | none => true)) st =
      getTextFromIAccessible.children iswspace varChildren st := by
  induction varChildren generalizing st with
  | nil => rfl
  | cons child rest ih =>
    cases child with
    | none =>
      rw [List.filter_cons_of_pos (by simp)]
      rw [getTextFromIAccessible.children, getTextFromIAccessible.children, ih]
    | some pacc2Child =>
      cases hoff : liveOff pacc2Child with
      | true =>
        rw [List.filter_cons_of_neg (by simp [hoff])]
        rw [getTextFromIAccessible.children, ih]
        simp [hoff]
      | false =>
        rw [List.filter_cons_of_pos (by simp [hoff])]
        rw [getTextFromIAccessible.children, getTextFromIAccessible.children, ih]

/-- The children loop, split at one child. -/
theorem children_at_child (iswspace : wchar_t → Bool)
    (before : List (Option IAccessible2)) (pacc2Child : IAccessible2)
    (after : List (Option IAccessible2)) (st : List wchar_t × Bool) :
    getTextFromIAccessible.children iswspace (before ++ some pacc2Child :: after) st =
      getTextFromIAccessible.children iswspace after
        (if liveOff pacc2Child then getTextFromIAccessible.children iswspace before st
         else
          ((getTextFromIAccessible iswspace
              (getTextFromIAccessible.children iswspace before st).1
              pacc2Child false true true).1,
            (getTextFromIAccessible.children iswspace before st).2 ||
              (getTextFromIAccessible iswspace
                (getTextFromIAccessible.children iswspace before st).1
                pacc2Child false true true).2)) := by
  induction before generalizing st with
  | nil =>
    rw [List.nil_append, getTextFromIAccessible.children, getTextFromIAccessible.children]
  | cons child rest ih =>
    cases child with
    | none =>
      rw [List.cons_append, getTextFromIAccessible.children, ih,
        getTextFromIAccessible.children]
    | some other =>
      rw [List.cons_append, getTextFromIAccessible.children, ih,
        getTextFromIAccessible.children]

/-- C17: for an object without text interface assembled with `recurse = true` and
`useNewText = false`, a child whose attributes have `live="off"` contributes nothing:
the result of `getTextFromIAccessible` is the one obtained for the same object with
every such child taken out of its children.  A child whose attributes cannot be fetched
is not skipped: the loop appends, at the place of that child, the text of the child
assembled with the default flags. -/
theorem live_off_children_skipped (iswspace : wchar_t → Bool) (textBuf : List wchar_t)
    (pacc2 : IAccessible2) (includeTopLevelText : Bool)
    (hnotext : pacc2.queryText = none) :
    getTextFromIAccessible iswspace textBuf pacc2 false true includeTopLevelText =
        getTextFromIAccessible iswspace textBuf pacc2.withoutLiveOffChildren false true
          includeTopLevelText ∧
      (∀ pacc2Child, some pacc2Child ∈ pacc2.accChildren →
        fetchIA2Attributes pacc2Child = none →
        some pacc2Child ∈ pacc2.withoutLiveOffChildren.accChildren) ∧
      (∀ pacc2Child, some pacc2Child ∈ pacc2.withoutLiveOffChildren.accChildren →
        liveOff pacc2Child = false) ∧
      (∀ before pacc2Child after,
        pacc2.accChildren = before ++ some pacc2Child :: after →
        fetchIA2Attributes pacc2Child = none →
        getTextFromIAccessible iswspace textBuf pacc2 false true includeTopLevelText =
          nameAndDescription iswspace false pacc2.get_accName pacc2.get_accDescription
            (getTextFromIAccessible.children iswspace after
              ((getTextFromIAccessible.children iswspace before (textBuf, false)).1 ++
                  (getTextFromIAccessible iswspace [] pacc2Child false true true).1,
                (getTextFromIAccessible.children iswspace before (textBuf, false)).2 ||
                  (getTextFromIAccessible iswspace [] pacc2Child false true true).2))) := by
  cases pacc2 with
  | mk a p varChildren t h n d =>
    simp only [IAccessible2.queryText] at hnotext
    subst hnotext
    refine ⟨?_, ?_, ?_, ?_⟩
    · rw [getTextFromIAccessible_eq, getTextFromIAccessible_eq]
      simp only [IAccessible2.withoutLiveOffChildren, IAccessible2.queryText,
        IAccessible2.accChildren, IAccessible2.get_accName,
        IAccessible2.get_accDescription, Option.isNone_none, Bool.true_and,
        Bool.not_false, Bool.and_true, if_true]
      rw [children_filter]
    · intro pacc2Child hmem hfetch
      simp only [IAccessible2.withoutLiveOffChildren, IAccessible2.accChildren] at hmem ⊢
      rw [List.mem_filter]
      refine ⟨hmem, ?_⟩
      simp [liveOff, hfetch, attribIs]
    · intro pacc2Child hmem
      simp only [IAccessible2.withoutLiveOffChildren, IAccessible2.accChildren] at hmem
      rw [List.mem_filter] at hmem
      simpa using hmem.2
    · intro before pacc2Child after hchildren hfetch
      simp only [IAccessible2.accChildren] at hchildren
      subst hchildren
      have hoff : liveOff pacc2Child = false := by
        simp [liveOff, hfetch, attribIs]
      rw [getTextFromIAccessible_eq]
      simp only [IAccessible2.queryText, IAccessible2.accChildren,
        IAccessible2.get_accName, IAccessible2.get_accDescription, Option.isNone_none,
        Bool.true_and, Bool.not_false, Bool.and_true, if_true]
      rw [children_at_child, hoff]
      simp only [Bool.false_eq_true, if_false]
      rw [getTextFromIAccessible_buffer]

/-- Instance of C17: in `mixedContainer` the child `mutedChild` adds nothing to the text
"here " of `linkChild`, a child without attributes. -/
theorem live_off_children_skipped_witness :
    getTextFromIAccessible Example.isSpace [] Example.mixedContainer false true true =
        ((wide "here "), true) ∧
      getTextFromIAccessible Example.isSpace [] Example.mixedContainer false true true =
        getTextFromIAccessible Example.isSpace []
          Example.mixedContainer.withoutLiveOffChildren false true true ∧
      getTextFromIAccessible Example.isSpace [] Example.mixedContainer false true true =
        nameAndDescription Example.isSpace false Example.mixedContainer.get_accName
          Example.mixedContainer.get_accDescription
          (getTextFromIAccessible.children Example.isSpace
            [some Example.mutedChild, none]
            ((getTextFromIAccessible.children Example.isSpace [] ([], false)).1 ++
                (getTextFromIAccessible Example.isSpace [] Example.linkChild
                  false true true).1,
              (getTextFromIAccessible.children Example.isSpace [] ([], false)).2 ||
                (getTextFromIAccessible Example.isSpace [] Example.linkChild
                  false true true).2)) :=
  ⟨by decide,
    (live_off_children_skipped Example.isSpace [] Example.mixedContainer true rfl).1,
    (live_off_children_skipped Example.isSpace [] Example.mixedContainer true
      rfl).2.2.2 [] Example.linkChild [some Example.mutedChild, none] rfl rfl⟩

/-- The function `getTextFromIAccessible` is the name and description fallback applied
to the result of the children loop or the text branch. -/
theorem getTextFromIAccessible_childrenOrText (iswspace : wchar_t → Bool)
    (textBuf : List wchar_t) (pacc2 : IAccessible2)
    (useNewText recurse includeTopLevelText : Bool) :
    getTextFromIAccessible iswspace textBuf pacc2 useNewText recurse includeTopLevelText =
      nameAndDescription iswspace useNewText pacc2.get_accName pacc2.get_accDescription
        (childrenOrText iswspace textBuf pacc2 useNewText recurse includeTopLevelText) := by
  rw [getTextFromIAccessible_eq]
  rfl

/-- C18: when `useNewText = false` and the children loop or the text branch left
`gotText` false, `getTextFromIAccessible` appends the name followed by one space if and
only if the name has a character that is neither white space nor the embedded object
character, and then appends the description if and only if the description has such a
character, the name before the description, and returns `true` if one of them was
appended; when `useNewText = true`, or `gotText` is already true, neither is appended. -/
theorem name_description_fallback (iswspace : wchar_t → Bool) (textBuf : List wchar_t)
    (pacc2 : IAccessible2) (recurse includeTopLevelText : Bool) :
    ((childrenOrText iswspace textBuf pacc2 false recurse includeTopLevelText).2 = false →
      getTextFromIAccessible iswspace textBuf pacc2 false recurse includeTopLevelText =
        ((childrenOrText iswspace textBuf pacc2 false recurse includeTopLevelText).1 ++
            (match pacc2.get_accName with
              | some val => if hasVisibleChar iswspace val then val ++ [SPACE] else []
              | none => []) ++
            (match pacc2.get_accDescription with
              | some val => if hasVisibleChar iswspace val then val else []
              | none => []),
          (match pacc2.get_accName with
            | some val => hasVisibleChar iswspace val
            | none => false) ||
          (match pacc2.get_accDescription with
            | some val => hasVisibleChar iswspace val
            | none => false))) ∧
    ((childrenOrText iswspace textBuf pacc2 false recurse includeTopLevelText).2 = true →
      getTextFromIAccessible iswspace textBuf pacc2 false recurse includeTopLevelText =
        childrenOrText iswspace textBuf pacc2 false recurse includeTopLevelText) ∧
    getTextFromIAccessible iswspace textBuf pacc2 true recurse includeTopLevelText =
      childrenOrText iswspace textBuf pacc2 true recurse includeTopLevelText := by
  refine ⟨?_, ?_, ?_⟩
  · intro hgot
    rw [getTextFromIAccessible_childrenOrText]
    generalize childrenOrText iswspace textBuf pacc2 false recurse includeTopLevelText = st
      at hgot ⊢
    obtain ⟨buf, got⟩ := st
    simp only at hgot
    subst hgot
    cases hn : pacc2.get_accName with
    | none =>
      cases hd : pacc2.get_accDescription with
      | none => simp [nameAndDescription, appendName, appendDescription]
      | some desc =>
        by_cases hvd : hasVisibleChar iswspace desc = true
        · simp [nameAndDescription, appendName, appendDescription, hvd]
        · simp [nameAndDescription, appendName, appendDescription, hvd]
    | some name =>
      by_cases hvn : hasVisibleChar iswspace name = true
      · cases hd : pacc2.get_accDescription with
        | none => simp [nameAndDescription, appendName, appendDescription, hvn]
        | some desc =>
          by_cases hvd : hasVisibleChar iswspace desc = true
          · simp [nameAndDescription, appendName, appendDescription, hvn, hvd]
          · simp [nameAndDescription, appendName, appendDescription, hvn, hvd]
      · cases hd : pacc2.get_accDescription with
        | none => simp [nameAndDescription, appendName, appendDescription, hvn]
        | some desc =>
          by_cases hvd : hasVisibleChar iswspace desc = true
          · simp [nameAndDescription, appendName, appendDescription, hvn, hvd]
          · simp [nameAndDescription, appendName, appendDescription, hvn, hvd]
  · intro hgot
    rw [getTextFromIAccessible_childrenOrText]
    simp [nameAndDescription, hgot]
  · rw [getTextFromIAccessible_childrenOrText]
    simp [nameAndDescription]

/-- Instance of C18: `labelledRegion` has no text and no child, and its name and its
description are both appended, the name first. -/
theorem name_description_fallback_witness :
    getTextFromIAccessible Example.isSpace [] Example.labelledRegion false true true =
      ((wide "Cart 3 items"), true) := by
  have h := (name_description_fallback Example.isSpace [] Example.labelledRegion
    true true).1 (by decide)
  rw [h]
  decide

/-- C20: for an object that exposes no text interface, or whose new text cannot be
retrieved, `getTextFromIAccessible` with `useNewText = true` appends nothing and returns
`false`, whatever `recurse` and `includeTopLevelText` are; hence a text-inserted or
text-updated event on such an object without atomic scope never causes a dispatch. -/
theorem new_text_absent (iswspace : wchar_t → Bool) (pacc2 : IAccessible2)
    (hnone : pacc2.queryText = none ∨
      ∃ paccText, pacc2.queryText = some paccText ∧
        (paccText.get_newText = none ∨
          ∃ newSeg, paccText.get_newText = some newSeg ∧ newSeg.text = none)) :
    (∀ (textBuf : List wchar_t) (recurse includeTopLevelText : Bool),
      getTextFromIAccessible iswspace textBuf pacc2 true recurse includeTopLevelText =
        (textBuf, false)) ∧
    (∀ (desktop : Desktop) (eventID : EventID) (hwnd : Nat) (objectID childID : Int)
        (attribsMap : AttribsMap),
      sourceObject desktop hwnd objectID childID = some pacc2 →
      fetchIA2Attributes pacc2 = some attribsMap →
      findAriaAtomic pacc2 attribsMap = none →
      (eventID = .IA2_EVENT_TEXT_INSERTED ∨ eventID = .IA2_EVENT_TEXT_UPDATED) →
      winEventProcHook iswspace desktop eventID hwnd objectID childID = none) := by
  have hretrieve : pacc2.queryText.bind (fun t => retrieveText t true) = none := by
    rcases hnone with h | ⟨paccText, h, hnew⟩
    · rw [h]
      rfl
    · rw [h]
      rcases hnew with hnew | ⟨newSeg, hnew, hseg⟩
      · simp [retrieveText, hnew]
      · simp [retrieveText, hnew, hseg]
  have hget : ∀ (textBuf : List wchar_t) (recurse includeTopLevelText : Bool),
      getTextFromIAccessible iswspace textBuf pacc2 true recurse includeTopLevelText =
        (textBuf, false) := by
    intro textBuf recurse includeTopLevelText
    rw [getTextFromIAccessible_eq, hretrieve]
    simp [nameAndDescription, textBranch]
  refine ⟨hget, ?_⟩
  intro desktop eventID hwnd objectID childID attribsMap hsrc hattr hatomic hevent
  cases hres : winEventProcHook iswspace desktop eventID hwnd objectID childID with
  | none => rfl
  | some text =>
    exfalso
    obtain ⟨p, hobj, hh⟩ := winEventProcHook_eq_some hres
    have hp := eventObject_sourceObject hobj
    rw [hsrc] at hp
    cases hp
    obtain ⟨m, hm, -, -, -, -, -, textBuf, hcollect, -, -⟩ := handleObject_eq_some hh
    rw [hattr] at hm
    cases hm
    unfold collectText at hcollect
    rw [hatomic] at hcollect
    rcases hevent with he | he <;> subst he <;>
      simp only [hget] at hcollect <;> simp at hcollect

/-- Instance of C20: a text-inserted event on `politeRegion`, which has no text
interface, dispatches nothing. -/
theorem new_text_absent_witness :
    getTextFromIAccessible Example.isSpace [] Example.politeRegion true true true =
        ([], false) ∧
      winEventProcHook Example.isSpace (Example.desktopOf Example.politeRegion)
        .IA2_EVENT_TEXT_INSERTED 1 0 0 = none :=
  ⟨(new_text_absent Example.isSpace Example.politeRegion (Or.inl rfl)).1 [] true true,
    (new_text_absent Example.isSpace Example.politeRegion (Or.inl rfl)).2
      (Example.desktopOf Example.politeRegion) .IA2_EVENT_TEXT_INSERTED 1 0 0
      [("container-live", "polite")] rfl rfl rfl (Or.inl rfl)⟩

end Ia2LiveRegions
